import Mathlib

/-!
# SMOrc-Engine: the frame lifecycle and the ownership model of `Game`

A shallow embedding of `Game.cpp` (constructor, `Init`, `LoadShaders`,
`CreateBasicGeometry`, `BeginPlay`, `OnResize`, `Update`, `Draw` and the
destructor) together with the `Entity` class of `Entity.h`.

* `float` values are elements of an arbitrary type `F` equipped with the
  operations `Game.cpp` uses (`FloatOps`); every general theorem holds for every
  choice of these operations, IEEE-754 `binary32` included.
* Raw pointers are addresses (`Ptr`, with `0` the null pointer) into an explicit
  free store (`Heap`); `new` takes the next unused address and `delete` removes
  the object behind an address.
* Undefined behaviour of the C++ program (indexing a vector out of bounds, going
  through a null or dangling pointer, deleting a non-live address) is a `Fault`.
* Calls into the collaborators whose code is outside `Game.cpp` (device context,
  swap chain, shader objects, the `DXCore` base class, `Entity::Draw`) are
  recorded as a trace of `Call` events.
-/

namespace SMOrc

/-! ## Scalars and vectors -/

/-- The `float` operations `Game.cpp` performs, over a carrier `F`:
literals, the conversion of an unsigned integer, unary minus, `+`, `*`, `/`
and `(float)sin(...)`. -/
structure FloatOps (F : Type) where
  lit : ℚ → F
  ofNat : Nat → F
  neg : F → F
  add : F → F → F
  mul : F → F → F
  div : F → F → F
  sin : F → F

/-- Three floats (`XMFLOAT3`). -/
structure Vec3 (F : Type) where
  x : F
  y : F
  z : F
deriving DecidableEq, Repr

/-- Four floats (`XMFLOAT4`). -/
structure Vec4 (F : Type) where
  x : F
  y : F
  z : F
  w : F
deriving DecidableEq, Repr

/-! ## Transform -/

/-- Modelled from the spec: the `Transform` class (`Transform.h` is not among
the sources). Position, Euler rotation and scale, three floats each. -/
structure Transform (F : Type) where
  position : Vec3 F
  rotation : Vec3 F
  scale : Vec3 F
deriving DecidableEq, Repr

/-- Modelled from the spec: the `Transform` a default-constructed object starts
with (`Transform.h` is not among the sources): at the origin, unrotated, unit
scale. -/
def Transform.initial {F : Type} (A : FloatOps F) : Transform F :=
  { position := ⟨A.lit 0, A.lit 0, A.lit 0⟩
    rotation := ⟨A.lit 0, A.lit 0, A.lit 0⟩
    scale := ⟨A.lit 1, A.lit 1, A.lit 1⟩ }

/-- Modelled from the spec: `Transform::MoveAbsolute` (`Transform.h` is not
among the sources), which adds a relative offset to the position. -/
def Transform.MoveAbsolute {F : Type} (A : FloatOps F) (t : Transform F) (dx dy dz : F) :
    Transform F :=
  { t with position := ⟨A.add t.position.x dx, A.add t.position.y dy, A.add t.position.z dz⟩ }

/-- Modelled from the spec: `Transform::SetPosition` (`Transform.h` is not among
the sources), which overwrites the position. -/
def Transform.SetPosition {F : Type} (t : Transform F) (x y z : F) : Transform F :=
  { t with position := ⟨x, y, z⟩ }

/-- Modelled from the spec: `Transform::SetScale` (`Transform.h` is not among
the sources), which overwrites the scale. -/
def Transform.SetScale {F : Type} (t : Transform F) (x y z : F) : Transform F :=
  { t with scale := ⟨x, y, z⟩ }

/-- Modelled from the spec: `Transform::Rotate` (`Transform.h` is not among the
sources), which adds relative Euler deltas to the rotation. -/
def Transform.Rotate {F : Type} (A : FloatOps F) (t : Transform F) (dx dy dz : F) :
    Transform F :=
  { t with rotation := ⟨A.add t.rotation.x dx, A.add t.rotation.y dy, A.add t.rotation.z dz⟩ }

/-- Modelled from the spec: `Transform::GetPosition` (`Transform.h` is not among
the sources), which returns the current position. -/
def Transform.GetPosition {F : Type} (t : Transform F) : Vec3 F :=
  t.position

/-! ## Objects and the free store -/

/-- A raw pointer: an address, `0` being the null pointer. -/
abbrev Ptr := Nat

/-- The null pointer. -/
def nullptr : Ptr := 0

/-- Modelled from the spec: the `Material` class (`Material.h` is not among the
sources): a base colour, a shininess scalar and the two shader pointers handed
to its constructor. -/
structure Material (F : Type) where
  color : Vec4 F
  shininess : F
  vertexShader : Ptr
  pixelShader : Ptr
deriving DecidableEq, Repr

/-- The `Entity` class of `Entity.h`: a `Transform` held by value and two raw
pointers, to a `Mesh` and to a `Material`. -/
structure Entity (F : Type) where
  transform : Transform F
  mesh : Ptr
  material : Ptr
deriving DecidableEq, Repr

/-- Modelled from the spec: the constructor `Entity::Entity(Mesh*, Material*)`
(declared in `Entity.h`, its body is not among the sources): it keeps the two
references it is given and starts with a fresh `Transform`. -/
def Entity.new {F : Type} (A : FloatOps F) (incomingMesh incomingMaterial : Ptr) : Entity F :=
  { transform := Transform.initial A, mesh := incomingMesh, material := incomingMaterial }

/-- The accessor `Entity::GetTransform`, the owned `Transform`. -/
def Entity.GetTransform {F : Type} (e : Entity F) : Transform F :=
  e.transform

/-- What an address of the free store holds: one of the objects `Game.cpp`
allocates with `new`. A `Mesh` and a shader are represented by the file they
were loaded from; a `Camera` by a value of the parameter type `Cam`. -/
inductive Obj (F Cam : Type) where
  | vertexShader (file : String)
  | pixelShader (file : String)
  | mesh (file : String)
  | material (m : Material F)
  | entity (e : Entity F)
  | camera (c : Cam)
deriving DecidableEq, Repr

/-- The free store: the live objects with their addresses, and the next unused
address. -/
structure Heap (F Cam : Type) where
  next : Ptr
  objs : List (Ptr × Obj F Cam)
deriving DecidableEq, Repr

/-- The free store before anything is allocated; address `0` is never used. -/
def Heap.empty {F Cam : Type} : Heap F Cam :=
  { next := 1, objs := [] }

/-- The object behind an address, if the address is live. -/
def Heap.read {F Cam : Type} (h : Heap F Cam) (p : Ptr) : Option (Obj F Cam) :=
  h.objs.lookup p

/-- The operator `new`: the object is placed at the next unused address, which is
returned. -/
def Heap.alloc {F Cam : Type} (h : Heap F Cam) (o : Obj F Cam) : Ptr × Heap F Cam :=
  (h.next, { next := h.next + 1, objs := h.objs ++ [(h.next, o)] })

/-- Overwrites the object behind an address (a mutation through a pointer). -/
def Heap.write {F Cam : Type} (h : Heap F Cam) (p : Ptr) (o : Obj F Cam) : Heap F Cam :=
  { h with objs := h.objs.map (fun q => if q.1 = p then (p, o) else q) }

/-- Removes the object behind an address (the effect of `delete` on the store). -/
def Heap.free {F Cam : Type} (h : Heap F Cam) (p : Ptr) : Heap F Cam :=
  { h with objs := h.objs.filter (fun q => decide (q.1 ≠ p)) }

/-- Undefined behaviour of the C++ program, made explicit. -/
inductive Fault where
  | outOfBounds
  | nullDeref
  | dangling
deriving DecidableEq, Repr

/-- Going through an `Entity*`. -/
def Heap.entityAt {F Cam : Type} (h : Heap F Cam) (p : Ptr) : Except Fault (Entity F) :=
  if p = nullptr then .error .nullDeref
  else match h.read p with
    | some (.entity e) => .ok e
    | _ => .error .dangling

/-- Going through a `Camera*`. -/
def Heap.cameraAt {F Cam : Type} (h : Heap F Cam) (p : Ptr) : Except Fault Cam :=
  if p = nullptr then .error .nullDeref
  else match h.read p with
    | some (.camera c) => .ok c
    | _ => .error .dangling

/-- Going through a `SimplePixelShader*`. -/
def Heap.pixelShaderAt {F Cam : Type} (h : Heap F Cam) (p : Ptr) : Except Fault String :=
  if p = nullptr then .error .nullDeref
  else match h.read p with
    | some (.pixelShader f) => .ok f
    | _ => .error .dangling

/-- Exact rational arithmetic, with the degree-seven Taylor polynomial standing
in for the sine: a concrete `FloatOps` on which the definitions can be
evaluated. -/
def ratOps : FloatOps ℚ where
  lit := fun q => q
  ofNat := fun n => (n : ℚ)
  neg := fun a => -a
  add := fun a b => a + b
  mul := fun a b => a * b
  div := fun a b => a / b
  sin := fun a => a - a ^ 3 / 6 + a ^ 5 / 120 - a ^ 7 / 5040

/-! ## The Game -/

/-- Modelled from the spec: a light descriptor (`Lights.h` is not among the
sources), with the fields `Game::Init` assigns. -/
structure Light (F : Type) where
  type : Int
  ambientColor : Vec3 F
  diffuseColor : Vec3 F
  direction : Vec3 F
  position : Vec3 F
  ambientIntensity : F
  diffuseIntensity : F
deriving DecidableEq, Repr

/-- Modelled from the spec: a light descriptor no field of which has been
assigned yet (`Game.h` is not among the sources). -/
def Light.unset {F : Type} (A : FloatOps F) : Light F :=
  { type := 0
    ambientColor := ⟨A.lit 0, A.lit 0, A.lit 0⟩
    diffuseColor := ⟨A.lit 0, A.lit 0, A.lit 0⟩
    direction := ⟨A.lit 0, A.lit 0, A.lit 0⟩
    position := ⟨A.lit 0, A.lit 0, A.lit 0⟩
    ambientIntensity := A.lit 0
    diffuseIntensity := A.lit 0 }

/-- The input the frame reads: `GetAsyncKeyState` by virtual-key code. -/
structure InputState where
  asyncKeyState : Nat → Int

/-- The virtual-key code of the escape key. -/
def VK_ESCAPE : Nat := 0x1B

/-- The `Camera` operations `Game.cpp` calls (`Camera.h` is not among the
sources), over a carrier `Cam`: the constructor from a position, an orientation
and an aspect value, `Camera::Update`, `Camera::UpdateProjectionMatrix` and
`GetTransform()->GetPosition()`. -/
structure CameraOps (F Cam : Type) where
  construct : Vec3 F → Vec3 F → F → Cam
  Update : F → InputState → Cam → Cam
  UpdateProjectionMatrix : F → Cam → Cam
  GetPosition : Cam → Vec3 F

/-- The data members of `Game` that `Game.cpp` uses (the window size comes from
the `DXCore` base class), together with the free store its pointers refer to. -/
structure Game (F Cam : Type) where
  heap : Heap F Cam
  width : Nat
  height : Nat
  vertexShader : Ptr
  pixelShader : Ptr
  meshes : List Ptr
  materials : List Ptr
  entities : List Ptr
  playerCamera : Ptr
  dirLight : Light F
  pointLight : Light F
  dirLight3 : Light F
deriving DecidableEq, Repr

/-- A call into a collaborator outside `Game.cpp`. -/
inductive Call (F : Type) where
  | Quit
  | DXCoreOnResize
  | IASetPrimitiveTopology
  | ClearRenderTargetView (color : Vec4 F)
  | ClearDepthStencilView
  | SetData (name : String) (light : Light F)
  | SetFloat3 (name : String) (value : Vec3 F)
  | CopyAllBufferData
  | EntityDraw (entity : Ptr) (mainCamera : Ptr)
  | Present
  | OMSetRenderTargets
deriving DecidableEq, Repr

/-- Modelled from the spec: the members of a `Game` before `Init` (`Game.h`,
which declares them, is not among the sources): empty collections, no camera and
no shaders yet (null pointers), lights unset. -/
def Game.uninitialized {F Cam : Type} (A : FloatOps F) (width height : Nat) : Game F Cam :=
  { heap := Heap.empty
    width := width
    height := height
    vertexShader := nullptr
    pixelShader := nullptr
    meshes := []
    materials := []
    entities := []
    playerCamera := nullptr
    dirLight := Light.unset A
    pointLight := Light.unset A
    dirLight3 := Light.unset A }

/-- The constructor `Game::Game`, which hands a client area of 1280 by 720 to
the `DXCore` base class. -/
def Game.new {F Cam : Type} (A : FloatOps F) : Game F Cam :=
  Game.uninitialized A 1280 720

/-- The unchecked subscript of a `std::vector` of pointers. -/
def subscript (v : List Ptr) (i : Nat) : Except Fault Ptr :=
  match v[i]? with
  | some p => .ok p
  | none => .error .outOfBounds

/-- The statement `entities[i]->GetTransform()->m(...)`: the mutator `m` applied
to the `Transform` of the entity behind `entities[i]`. -/
def Game.onTransform {F Cam : Type} (g : Game F Cam) (i : Nat)
    (m : Transform F → Transform F) : Except Fault (Game F Cam) := do
  let p ← subscript g.entities i
  let e ← g.heap.entityAt p
  pure { g with heap := g.heap.write p (.entity { e with transform := m e.GetTransform }) }

/-- The member function `Game::LoadShaders`. -/
def Game.LoadShaders {F Cam : Type} (g : Game F Cam) : Game F Cam :=
  let (vs, h) := g.heap.alloc (.vertexShader "VertexShader.cso")
  let (ps, h) := h.alloc (.pixelShader "PixelShader.cso")
  { g with heap := h, vertexShader := vs, pixelShader := ps }

/-- The statement `meshes.push_back(new Mesh(file, device))`. -/
def Game.pushMesh {F Cam : Type} (g : Game F Cam) (file : String) : Game F Cam :=
  let (p, h) := g.heap.alloc (.mesh file)
  { g with heap := h, meshes := g.meshes ++ [p] }

/-- The statement
`materials.push_back(new Material(color, shininess, vertexShader, pixelShader))`. -/
def Game.pushMaterial {F Cam : Type} (g : Game F Cam) (color : Vec4 F) (shininess : F) :
    Game F Cam :=
  let (p, h) := g.heap.alloc (.material ⟨color, shininess, g.vertexShader, g.pixelShader⟩)
  { g with heap := h, materials := g.materials ++ [p] }

/-- The statement `entities.push_back(new Entity(meshes[i], materials[j]))`. -/
def Game.pushEntity {F Cam : Type} (A : FloatOps F) (g : Game F Cam) (i j : Nat) :
    Except Fault (Game F Cam) := do
  let m ← subscript g.meshes i
  let mat ← subscript g.materials j
  let (p, h) := g.heap.alloc (.entity (Entity.new A m mat))
  pure { g with heap := h, entities := g.entities ++ [p] }

/-- The member function `Game::CreateBasicGeometry`. -/
def Game.CreateBasicGeometry {F Cam : Type} (A : FloatOps F) (g : Game F Cam) :
    Except Fault (Game F Cam) := do
  let g := g.pushMesh "../../Assets/Models/sphere.obj"
  let g := g.pushMesh "../../Assets/Models/cube.obj"
  let g := g.pushMesh "../../Assets/Models/helix.obj"
  let g := g.pushMesh "../../Assets/Models/torus.obj"
  let g := g.pushMesh "../../Assets/Models/cylinder.obj"
  let g := g.pushMaterial ⟨A.lit (2/10), A.lit (17/100), A.lit (54/100), A.lit 1⟩ (A.lit 1)
  let g := g.pushMaterial ⟨A.lit (4/10), A.lit (86/100), A.lit (39/100), A.lit 1⟩ (A.lit 1)
  let g := g.pushMaterial ⟨A.lit (88/100), A.lit (1/10), A.lit (68/100), A.lit 1⟩
    (A.lit (75/100))
  let g := g.pushMaterial ⟨A.lit (15/100), A.lit (1/10), A.lit (5/10), A.lit 1⟩
    (A.lit (35/100))
  let g := g.pushMaterial ⟨A.lit (2/10), A.lit (8/10), A.lit (28/100), A.lit 1⟩ (A.lit 0)
  let g ← g.pushEntity A 0 0
  let g ← g.pushEntity A 1 1
  let g ← g.pushEntity A 2 2
  let g ← g.pushEntity A 3 3
  g.pushEntity A 4 4

/-- The member function `Game::BeginPlay`. -/
def Game.BeginPlay {F Cam : Type} (A : FloatOps F) (g : Game F Cam) :
    Except Fault (Game F Cam) :=
  if g.entities.length ≤ 0 then
    pure g
  else do
    let g ← g.onTransform 0 (fun t => t.MoveAbsolute A (A.lit 3) (A.lit 0) (A.lit 1))
    let g ← g.onTransform 1 (fun t => t.SetPosition (A.lit (2/10)) (A.lit 1) (A.lit (5/10)))
    let g ← g.onTransform 2 (fun t => t.SetPosition (A.neg (A.lit (15/10))) (A.lit 0)
      (A.neg (A.lit 1)))
    let g ← g.onTransform 2 (fun t => t.SetScale (A.lit (5/10)) (A.lit (5/10)) (A.lit (5/10)))
    g.onTransform 4 (fun t => t.SetPosition (A.lit 1) (A.neg (A.lit (15/10)))
      (A.neg (A.lit (5/100))))

/-- The member function `Game::Init`. -/
def Game.Init {F Cam : Type} (A : FloatOps F) (C : CameraOps F Cam) (g : Game F Cam) :
    Except Fault (Game F Cam × List (Call F)) := do
  let g := g.LoadShaders
  let g ← g.CreateBasicGeometry A
  let (cam, h) := g.heap.alloc (.camera (C.construct ⟨A.lit 0, A.lit 0, A.neg (A.lit 4)⟩
    ⟨A.lit 0, A.lit 0, A.lit 0⟩ (A.div (A.ofNat g.width) (A.ofNat g.height))))
  let g := { g with heap := h, playerCamera := cam }
  let g := { g with dirLight := { g.dirLight with
    ambientColor := ⟨A.lit (1/10), A.lit (1/10), A.lit (1/10)⟩
    diffuseColor := ⟨A.lit (8/10), A.lit (8/10), A.lit (8/10)⟩
    direction := ⟨A.lit 1, A.neg (A.lit 1), A.lit 0⟩
    type := 0
    ambientIntensity := A.lit 1
    diffuseIntensity := A.lit (5/10) } }
  let g := { g with pointLight := { g.pointLight with
    ambientColor := ⟨A.lit (1/10), A.lit (1/10), A.lit (1/10)⟩
    diffuseColor := ⟨A.lit (7/10), A.lit (7/10), A.lit (7/10)⟩
    type := 1
    ambientIntensity := A.lit 1
    diffuseIntensity := A.lit 1
    position := ⟨A.lit 0, A.lit 0, A.lit 0⟩ } }
  let g := { g with dirLight3 := { g.dirLight3 with
    ambientColor := ⟨A.lit (1/10), A.lit (1/10), A.lit (1/10)⟩
    diffuseColor := ⟨A.lit (4/10), A.lit (4/10), A.lit (4/10)⟩
    direction := ⟨A.neg (A.lit 1), A.neg (A.lit 1), A.neg (A.lit 1)⟩
    type := 0
    ambientIntensity := A.lit (5/10)
    diffuseIntensity := A.lit (5/10) } }
  let g ← g.BeginPlay A
  pure (g, [Call.IASetPrimitiveTopology])

/-- The member function `Game::OnResize`. The base-class handler
`DXCore::OnResize` (not among the sources) is recorded as a call. -/
def Game.OnResize {F Cam : Type} (A : FloatOps F) (C : CameraOps F Cam) (g : Game F Cam) :
    Except Fault (Game F Cam × List (Call F)) :=
  let calls := [Call.DXCoreOnResize]
  if g.playerCamera = nullptr then
    pure (g, calls)
  else do
    let c ← g.heap.cameraAt g.playerCamera
    let c := C.UpdateProjectionMatrix (A.div (A.ofNat g.width) (A.ofNat g.height)) c
    pure ({ g with heap := g.heap.write g.playerCamera (.camera c) }, calls)

/-- The member function `Game::Update`. `Quit` (of the `DXCore` base class, not
among the sources) is recorded as a call. -/
def Game.Update {F Cam : Type} (A : FloatOps F) (C : CameraOps F Cam) (input : InputState)
    (deltaTime totalTime : F) (g : Game F Cam) :
    Except Fault (Game F Cam × List (Call F)) :=
  let calls := if input.asyncKeyState VK_ESCAPE ≠ 0 then [Call.Quit] else []
  if g.entities.length = 0 then
    pure (g, calls)
  else do
    let sinTime := A.sin totalTime
    let offset := A.mul sinTime deltaTime
    let g ← g.onTransform 0 (fun t =>
      t.MoveAbsolute A (A.div (A.neg offset) (A.lit 3)) (A.div offset (A.lit 5)) (A.lit 0))
    let g ← g.onTransform 0 (fun t =>
      t.SetPosition t.GetPosition.x t.GetPosition.y (A.neg (A.lit (1/100))))
    let g ← g.onTransform 1 (fun t => t.MoveAbsolute A (A.lit 0) offset (A.lit 0))
    let g ← g.onTransform 2 (fun t => t.Rotate A (A.lit 0) (A.mul (A.lit 1) deltaTime) (A.lit 0))
    let g ← g.onTransform 3 (fun t =>
      t.MoveAbsolute A (A.lit 0) (A.lit 0) (A.mul offset (A.lit 2)))
    let g ← g.onTransform 3 (fun t =>
      t.MoveAbsolute A (A.div offset (A.lit 2)) (A.div (A.neg offset) (A.lit 2)) (A.lit 0))
    let g ← g.onTransform 3 (fun t =>
      t.Rotate A (A.mul (A.neg (A.lit (15/10))) deltaTime) (A.lit 0) (A.lit 0))
    let g ← g.onTransform 4 (fun t => t.Rotate A (A.lit 0) (A.lit 0) (A.mul offset (A.lit 2)))
    let c ← g.heap.cameraAt g.playerCamera
    pure ({ g with heap := g.heap.write g.playerCamera (.camera (C.Update deltaTime input c)) },
      calls)

/-- The loop `for (Entity* entity : entities) entity->Draw(context, playerCamera)`:
one call of `Entity::Draw` (not among the sources) per element, front to back. -/
def drawEntities {F Cam : Type} (h : Heap F Cam) (mainCamera : Ptr) :
    List Ptr → Except Fault (List (Call F))
  | [] => pure []
  | entity :: rest => do
    let _ ← h.entityAt entity
    let calls ← drawEntities h mainCamera rest
    pure (Call.EntityDraw entity mainCamera :: calls)

/-- The member function `Game::Draw`. -/
def Game.Draw {F Cam : Type} (A : FloatOps F) (C : CameraOps F Cam) (_deltaTime _totalTime : F)
    (g : Game F Cam) :
    Except Fault (Game F Cam × List (Call F)) := do
  let color : Vec4 F := ⟨A.lit (4/10), A.lit (6/10), A.lit (75/100), A.lit 0⟩
  let clear := [Call.ClearRenderTargetView color, Call.ClearDepthStencilView]
  let _ ← g.heap.pixelShaderAt g.pixelShader
  let lights := [Call.SetData "dirLight" g.dirLight, Call.SetData "pointLight" g.pointLight,
    Call.SetData "dirLight3" g.dirLight3]
  let c ← g.heap.cameraAt g.playerCamera
  let upload := [Call.SetFloat3 "cameraPosition" (C.GetPosition c), Call.CopyAllBufferData]
  let draws ← drawEntities g.heap g.playerCamera g.entities
  pure (g, clear ++ lights ++ upload ++ draws ++ [Call.Present, Call.OMSetRenderTargets])

/-! ## Teardown -/

/-- Which `delete` statement of the destructor released an object. -/
inductive Owner where
  | entities
  | materials
  | meshes
  | playerCamera
  | pixelShader
  | vertexShader
deriving DecidableEq, Repr

/-- One release: the `delete` statement and the address it was given. -/
structure Release where
  owner : Owner
  addr : Ptr
deriving DecidableEq, Repr

/-- Whether an object is of the class a `delete` statement expects. -/
def Owner.owns {F Cam : Type} : Owner → Obj F Cam → Bool
  | .entities, .entity _ => true
  | .materials, .material _ => true
  | .meshes, .mesh _ => true
  | .playerCamera, .camera _ => true
  | .pixelShader, .pixelShader _ => true
  | .vertexShader, .vertexShader _ => true
  | _, _ => false

/-- The statement `delete p`: nothing for the null pointer, a fault for an
address that is not live (or holds an object of another class), else the object
is removed. -/
def Heap.delete {F Cam : Type} (h : Heap F Cam) (owner : Owner) (p : Ptr) :
    Except Fault (Heap F Cam × List Release) :=
  if p = nullptr then pure (h, [])
  else match h.read p with
    | some o => if owner.owns o then pure (h.free p, [⟨owner, p⟩]) else .error .dangling
    | none => .error .dangling

/-- One `parallel_for` of the destructor over a collection: the body
`delete v[i]` runs once for every index of the schedule, in the order of the
schedule. The loop returns when all its iterations have. -/
def deleteAll {F Cam : Type} (owner : Owner) (v : List Ptr) :
    List Nat → Heap F Cam → Except Fault (Heap F Cam × List Release)
  | [], h => pure (h, [])
  | i :: schedule, h => do
    let p ← subscript v i
    let (h, first) ← h.delete owner p
    let (h, rest) ← deleteAll owner v schedule h
    pure (h, first ++ rest)

/-- The destructor `Game::~Game`: the three `parallel_for` loops, each under a
schedule of its index range, then the camera and the two shaders. Returns the
free store left and the releases in order. -/
def Game.destructor {F Cam : Type} (g : Game F Cam) (entitySchedule materialSchedule
    meshSchedule : List Nat) : Except Fault (Heap F Cam × List Release) := do
  let (h, t1) ← deleteAll .entities g.entities entitySchedule g.heap
  let (h, t2) ← deleteAll .materials g.materials materialSchedule h
  let (h, t3) ← deleteAll .meshes g.meshes meshSchedule h
  let (h, t4) ← h.delete .playerCamera g.playerCamera
  let (h, t5) ← h.delete .pixelShader g.pixelShader
  let (h, t6) ← h.delete .vertexShader g.vertexShader
  pure (h, t1 ++ t2 ++ t3 ++ t4 ++ t5 ++ t6)

/-- A recording camera: the position, the orientation and the aspect value it
was last given, and the number of calls of `Update` it has received. -/
structure SimpleCamera where
  position : Vec3 ℚ
  orientation : Vec3 ℚ
  aspect : ℚ
  updates : Nat
deriving DecidableEq, Repr

/-- A concrete `CameraOps` on which the definitions can be evaluated: the
recording camera, which counts its `Update` calls and stores the aspect value of
a resize. -/
def simpleCamera : CameraOps ℚ SimpleCamera where
  construct := fun p o a => ⟨p, o, a, 0⟩
  Update := fun _ _ c => { c with updates := c.updates + 1 }
  UpdateProjectionMatrix := fun a c => { c with aspect := a }
  GetPosition := fun c => c.position

/-! ## Observations, invariants and reachable states -/

/-- The entity behind `entities[i]`, when the index is in bounds and the pointer
is live. -/
def Game.entityOf {F Cam : Type} (g : Game F Cam) (i : Nat) : Option (Entity F) :=
  match g.entities[i]? with
  | none => none
  | some p =>
    match g.heap.entityAt p with
    | .ok e => some e
    | .error _ => none

/-- The transform of the entity behind `entities[i]`. -/
def Game.transformOf {F Cam : Type} (g : Game F Cam) (i : Nat) : Option (Transform F) :=
  (g.entityOf i).map Entity.GetTransform

/-- The camera behind `playerCamera`, when there is one. -/
def Game.cameraOf {F Cam : Type} (g : Game F Cam) : Option Cam :=
  match g.heap.cameraAt g.playerCamera with
  | .ok c => some c
  | .error _ => none

/-- A scene that has been set up: at least five entities, every element of the
entity collection a distinct live `Entity`, and a live camera. -/
structure Game.Ready {F Cam : Type} (g : Game F Cam) : Prop where
  five : 5 ≤ g.entities.length
  nodup : g.entities.Nodup
  live : ∀ p ∈ g.entities, ∃ e, g.heap.entityAt p = .ok e
  camera : ∃ c, g.heap.cameraAt g.playerCamera = .ok c

/-- Two objects that differ at most by an entity's transform or by the value of
the camera: an entity keeps its mesh and material references, any other object
is the same. -/
def Obj.SameUpToMotion {F Cam : Type} : Obj F Cam → Obj F Cam → Prop
  | .entity e, .entity e' => e'.mesh = e.mesh ∧ e'.material = e.material
  | .camera _, .camera _ => True
  | o, o' => o' = o

/-- Two free stores with the same live addresses, holding the same objects up
to entity transforms and the camera. -/
def Heap.SameUpToMotion {F Cam : Type} (h h' : Heap F Cam) : Prop :=
  h'.next = h.next ∧
    ∀ q, (h.read q = none ∧ h'.read q = none) ∨
      ∃ o o', h.read q = some o ∧ h'.read q = some o' ∧ o.SameUpToMotion o'

/-- Two states of the `Game` with the same collections (same pointers in the same
order), the same camera and shader pointers, window size and lights, over free
stores that agree up to entity transforms and the camera. -/
def Game.SameScene {F Cam : Type} (g g' : Game F Cam) : Prop :=
  g' = { g with heap := g'.heap } ∧ g.heap.SameUpToMotion g'.heap

/-- The states the frame loop can be in: the one `Init` leaves when run on the
constructed `Game`, and every state a returning `Update`, `Draw` or `OnResize`
leaves from such a state. -/
inductive Game.Reachable {F Cam : Type} (A : FloatOps F) (C : CameraOps F Cam) :
    Game F Cam → Prop where
  | init (g : Game F Cam) (calls : List (Call F)) :
      Game.Init A C (Game.new A) = .ok (g, calls) → Game.Reachable A C g
  | update (g g' : Game F Cam) (input : InputState) (deltaTime totalTime : F)
      (calls : List (Call F)) :
      Game.Reachable A C g → Game.Update A C input deltaTime totalTime g = .ok (g', calls) →
      Game.Reachable A C g'
  | draw (g g' : Game F Cam) (deltaTime totalTime : F) (calls : List (Call F)) :
      Game.Reachable A C g → Game.Draw A C deltaTime totalTime g = .ok (g', calls) →
      Game.Reachable A C g'
  | resize (g g' : Game F Cam) (width height : Nat) (calls : List (Call F)) :
      Game.Reachable A C g →
      Game.OnResize A C { g with width := width, height := height } = .ok (g', calls) →
      Game.Reachable A C g'

/-- The net effect of the body of `Update` on the transform of the entity with
index `i`: the mutators `Update` applies to `entities[i]`, composed in program
order. -/
def scriptedMotion {F : Type} (A : FloatOps F) (deltaTime totalTime : F) (i : Nat)
    (t : Transform F) : Transform F :=
  let offset := A.mul (A.sin totalTime) deltaTime
  match i with
  | 0 =>
    let t := t.MoveAbsolute A (A.div (A.neg offset) (A.lit 3)) (A.div offset (A.lit 5)) (A.lit 0)
    t.SetPosition t.GetPosition.x t.GetPosition.y (A.neg (A.lit (1/100)))
  | 1 => t.MoveAbsolute A (A.lit 0) offset (A.lit 0)
  | 2 => t.Rotate A (A.lit 0) (A.mul (A.lit 1) deltaTime) (A.lit 0)
  | 3 =>
    let t := t.MoveAbsolute A (A.lit 0) (A.lit 0) (A.mul offset (A.lit 2))
    let t := t.MoveAbsolute A (A.div offset (A.lit 2)) (A.div (A.neg offset) (A.lit 2)) (A.lit 0)
    t.Rotate A (A.mul (A.neg (A.lit (15/10))) deltaTime) (A.lit 0) (A.lit 0)
  | 4 => t.Rotate A (A.lit 0) (A.lit 0) (A.mul offset (A.lit 2))
  | _ => t

/-- The collections survive a step: the three vectors hold the same pointers
in the same order, every entity of the collection still holds the same mesh and
material pointers, and every object that is neither an entity nor the camera
(meshes, materials, shaders) is untouched. -/
def Game.CollectionsKept {F Cam : Type} (g g' : Game F Cam) : Prop :=
  g'.meshes = g.meshes ∧ g'.materials = g.materials ∧ g'.entities = g.entities ∧
  (∀ i e, g.entityOf i = some e →
    ∃ e', g'.entityOf i = some e' ∧ e'.mesh = e.mesh ∧ e'.material = e.material) ∧
  (∀ p o, g.heap.read p = some o → (∀ e, o ≠ .entity e) → (∀ c, o ≠ .camera c) →
    g'.heap.read p = some o)

/-- The state `Init` leaves when run on the constructed `Game`, written out:
the two shaders at addresses 1 and 2, the five meshes at 3 to 7, the five
materials at 8 to 12, the five entities at 13 to 17 and the camera at 18. -/
def Game.afterInit {F Cam : Type} (A : FloatOps F) (C : CameraOps F Cam) : Game F Cam :=
  { heap :=
      { next := 19
        objs :=
          [(1, .vertexShader "VertexShader.cso"),
           (2, .pixelShader "PixelShader.cso"),
           (3, .mesh "../../Assets/Models/sphere.obj"),
           (4, .mesh "../../Assets/Models/cube.obj"),
           (5, .mesh "../../Assets/Models/helix.obj"),
           (6, .mesh "../../Assets/Models/torus.obj"),
           (7, .mesh "../../Assets/Models/cylinder.obj"),
           (8, .material ⟨⟨A.lit (2/10), A.lit (17/100), A.lit (54/100), A.lit 1⟩,
             A.lit 1, 1, 2⟩),
           (9, .material ⟨⟨A.lit (4/10), A.lit (86/100), A.lit (39/100), A.lit 1⟩,
             A.lit 1, 1, 2⟩),
           (10, .material ⟨⟨A.lit (88/100), A.lit (1/10), A.lit (68/100), A.lit 1⟩,
             A.lit (75/100), 1, 2⟩),
           (11, .material ⟨⟨A.lit (15/100), A.lit (1/10), A.lit (5/10), A.lit 1⟩,
             A.lit (35/100), 1, 2⟩),
           (12, .material ⟨⟨A.lit (2/10), A.lit (8/10), A.lit (28/100), A.lit 1⟩,
             A.lit 0, 1, 2⟩),
           (13, .entity
             { transform :=
                 { position := ⟨A.add (A.lit 0) (A.lit 3), A.add (A.lit 0) (A.lit 0),
                     A.add (A.lit 0) (A.lit 1)⟩
                   rotation := ⟨A.lit 0, A.lit 0, A.lit 0⟩
                   scale := ⟨A.lit 1, A.lit 1, A.lit 1⟩ }
               mesh := 3
               material := 8 }),
           (14, .entity
             { transform :=
                 { position := ⟨A.lit (2/10), A.lit 1, A.lit (5/10)⟩
                   rotation := ⟨A.lit 0, A.lit 0, A.lit 0⟩
                   scale := ⟨A.lit 1, A.lit 1, A.lit 1⟩ }
               mesh := 4
               material := 9 }),
           (15, .entity
             { transform :=
                 { position := ⟨A.neg (A.lit (15/10)), A.lit 0, A.neg (A.lit 1)⟩
                   rotation := ⟨A.lit 0, A.lit 0, A.lit 0⟩
                   scale := ⟨A.lit (5/10), A.lit (5/10), A.lit (5/10)⟩ }
               mesh := 5
               material := 10 }),
           (16, .entity { transform := Transform.initial A, mesh := 6, material := 11 }),
           (17, .entity
             { transform :=
                 { position := ⟨A.lit 1, A.neg (A.lit (15/10)), A.neg (A.lit (5/100))⟩
                   rotation := ⟨A.lit 0, A.lit 0, A.lit 0⟩
                   scale := ⟨A.lit 1, A.lit 1, A.lit 1⟩ }
               mesh := 7
               material := 12 }),
           (18, .camera (C.construct ⟨A.lit 0, A.lit 0, A.neg (A.lit 4)⟩
             ⟨A.lit 0, A.lit 0, A.lit 0⟩ (A.div (A.ofNat 1280) (A.ofNat 720))))] }
    width := 1280
    height := 720
    vertexShader := 1
    pixelShader := 2
    meshes := [3, 4, 5, 6, 7]
    materials := [8, 9, 10, 11, 12]
    entities := [13, 14, 15, 16, 17]
    playerCamera := 18
    dirLight :=
      { type := 0
        ambientColor := ⟨A.lit (1/10), A.lit (1/10), A.lit (1/10)⟩
        diffuseColor := ⟨A.lit (8/10), A.lit (8/10), A.lit (8/10)⟩
        direction := ⟨A.lit 1, A.neg (A.lit 1), A.lit 0⟩
        position := ⟨A.lit 0, A.lit 0, A.lit 0⟩
        ambientIntensity := A.lit 1
        diffuseIntensity := A.lit (5/10) }
    pointLight :=
      { type := 1
        ambientColor := ⟨A.lit (1/10), A.lit (1/10), A.lit (1/10)⟩
        diffuseColor := ⟨A.lit (7/10), A.lit (7/10), A.lit (7/10)⟩
        direction := ⟨A.lit 0, A.lit 0, A.lit 0⟩
        position := ⟨A.lit 0, A.lit 0, A.lit 0⟩
        ambientIntensity := A.lit 1
        diffuseIntensity := A.lit 1 }
    dirLight3 :=
      { type := 0
        ambientColor := ⟨A.lit (1/10), A.lit (1/10), A.lit (1/10)⟩
        diffuseColor := ⟨A.lit (4/10), A.lit (4/10), A.lit (4/10)⟩
        direction := ⟨A.neg (A.lit 1), A.neg (A.lit 1), A.neg (A.lit 1)⟩
        position := ⟨A.lit 0, A.lit 0, A.lit 0⟩
        ambientIntensity := A.lit (5/10)
        diffuseIntensity := A.lit (5/10) } }

/-- The calls `Draw` makes before the entity loop: the two clears, the three
light descriptors, the camera position and the commit of the constant data. -/
def drawPrologue {F Cam : Type} (A : FloatOps F) (C : CameraOps F Cam) (g : Game F Cam)
    (c : Cam) : List (Call F) :=
  [Call.ClearRenderTargetView ⟨A.lit (4/10), A.lit (6/10), A.lit (75/100), A.lit 0⟩,
   Call.ClearDepthStencilView,
   Call.SetData "dirLight" g.dirLight,
   Call.SetData "pointLight" g.pointLight,
   Call.SetData "dirLight3" g.dirLight3,
   Call.SetFloat3 "cameraPosition" (C.GetPosition c),
   Call.CopyAllBufferData]

/-- The laws of zero the scenario `Update(0, 0)` relies on, `q` ranging over
literals. Exact arithmetic satisfies them; IEEE-754 arithmetic satisfies them up
to the sign of zero. -/
structure ZeroLaws {F : Type} (A : FloatOps F) : Prop where
  sin_zero : A.sin (A.lit 0) = A.lit 0
  neg_lit : ∀ q, A.neg (A.lit q) = A.lit (-q)
  mul_zero : ∀ q, A.mul (A.lit q) (A.lit 0) = A.lit 0
  zero_mul : ∀ q, A.mul (A.lit 0) (A.lit q) = A.lit 0
  zero_div : ∀ q, q ≠ 0 → A.div (A.lit 0) (A.lit q) = A.lit 0
  add_zero : ∀ x, A.add x (A.lit 0) = x

/-- An input state in which no key is down. -/
def noKeys : InputState :=
  { asyncKeyState := fun _ => 0 }

/-- An input state in which only the escape key is down. -/
def escapeDown : InputState :=
  { asyncKeyState := fun k => if k = VK_ESCAPE then -32768 else 0 }

/-- In a trace of releases, every release satisfying `P` comes before every
release satisfying `Q`. -/
def Precedes (P Q : Release → Prop) (t : List Release) : Prop :=
  ∀ (i j : Nat) (a b : Release), t[i]? = some a → t[j]? = some b → P a → Q b → i < j

/-- What the destructor relies on: every element of each collection is a
distinct, non-null, live object of the collection's class, and the camera and
the shaders are each null or live. -/
structure Game.Owned {F Cam : Type} (g : Game F Cam) : Prop where
  entities_nodup : g.entities.Nodup
  materials_nodup : g.materials.Nodup
  meshes_nodup : g.meshes.Nodup
  entities_live : ∀ p ∈ g.entities, p ≠ nullptr ∧ ∃ e, g.heap.read p = some (.entity e)
  materials_live : ∀ p ∈ g.materials,
    p ≠ nullptr ∧ ∃ m, g.heap.read p = some (.material m)
  meshes_live : ∀ p ∈ g.meshes, p ≠ nullptr ∧ ∃ f, g.heap.read p = some (.mesh f)
  camera_live : g.playerCamera = nullptr ∨ ∃ c, g.heap.read g.playerCamera = some (.camera c)
  pixelShader_live : g.pixelShader = nullptr ∨
    ∃ f, g.heap.read g.pixelShader = some (.pixelShader f)
  vertexShader_live : g.vertexShader = nullptr ∨
    ∃ f, g.heap.read g.vertexShader = some (.vertexShader f)

/-- The releases of one `parallel_for` of the destructor over the collection
`v` under a schedule, in order. -/
def phaseTrace (owner : Owner) (v : List Ptr) (schedule : List Nat) : List Release :=
  schedule.map (fun i => ⟨owner, v.getD i nullptr⟩)

/-- The release a single `delete p` makes: none for the null pointer. -/
def releaseOf (owner : Owner) (p : Ptr) : List Release :=
  if p = nullptr then [] else [⟨owner, p⟩]

/-- The trace of the destructor in closed form: the three phases under their
schedules, then the camera, the pixel shader and the vertex shader. -/
def Game.teardownTrace {F Cam : Type} (g : Game F Cam) (entitySchedule materialSchedule
    meshSchedule : List Nat) : List Release :=
  phaseTrace .entities g.entities entitySchedule ++
    phaseTrace .materials g.materials materialSchedule ++
    phaseTrace .meshes g.meshes meshSchedule ++
    releaseOf .playerCamera g.playerCamera ++
    releaseOf .pixelShader g.pixelShader ++
    releaseOf .vertexShader g.vertexShader

/-- The free store `h'` is `h` with the addresses of `dead` removed and every
other address untouched. -/
def Heap.FreedFrom {F Cam : Type} (h h' : Heap F Cam) (dead : List Ptr) : Prop :=
  ∀ q, h'.read q = if q ∈ dead then none else h.read q

/-- Every address of `dead` holds, in `h`, an object that one of the `delete`
statements in `owners` expects. -/
def Heap.OwnedBy {F Cam : Type} (h : Heap F Cam) (dead : List Ptr) (owners : List Owner) : Prop :=
  ∀ q ∈ dead, ∃ o own, h.read q = some o ∧ own.owns o = true ∧ own ∈ owners

/-! ## The free store: reading after writing, freeing and allocating -/

theorem lookup_map_write {F Cam : Type} (l : List (Ptr × Obj F Cam)) (p q : Ptr) (o : Obj F Cam) :
    (l.map (fun r => if r.1 = p then (p, o) else r)).lookup q =
      if q = p then (l.lookup p).map (fun _ => o) else l.lookup q := by
  induction l with
  | nil => simp
  | cons a l ih =>
    obtain ⟨k, v⟩ := a
    by_cases hk : k = p
    · subst hk
      by_cases hq : q = k
      · subst hq
        simp [List.lookup_cons]
      · have hq2 : (q == k) = false := by simpa using hq
        simp only [List.map_cons, if_true, List.lookup_cons, hq2, ih, if_neg hq]
    · by_cases hq : q = p
      · subst hq
        have h1 : (q == k) = false := by simpa using fun h => hk h.symm
        simp only [List.map_cons, if_neg hk, List.lookup_cons, h1, ih, if_true]
      · simp only [List.map_cons, if_neg hk, List.lookup_cons, ih, if_neg hq]

theorem lookup_filter_free {F Cam : Type} (l : List (Ptr × Obj F Cam)) (p q : Ptr) :
    (l.filter (fun r => decide (r.1 ≠ p))).lookup q = if q = p then none else l.lookup q := by
  induction l with
  | nil => simp
  | cons a l ih =>
    obtain ⟨k, v⟩ := a
    by_cases hk : k = p
    · subst hk
      by_cases hq : q = k
      · subst hq
        simpa using ih
      · have hq2 : (q == k) = false := by simpa using hq
        simpa [List.lookup_cons, hq2, hq] using ih
    · by_cases hq : q = p
      · subst hq
        have h1 : (q == k) = false := by simpa using fun h => hk h.symm
        simpa [List.filter_cons, hk, List.lookup_cons, h1] using ih
      · rw [if_neg hq] at ih ⊢
        have hcons : ((k, v) :: l).filter (fun r => decide (r.1 ≠ p)) =
            (k, v) :: l.filter (fun r => decide (r.1 ≠ p)) := by
          simp [List.filter_cons, hk]
        rw [hcons, List.lookup_cons, List.lookup_cons, ih]

theorem Heap.read_write {F Cam : Type} (h : Heap F Cam) (p q : Ptr) (o : Obj F Cam) :
    (h.write p o).read q = if q = p then (h.read p).map (fun _ => o) else h.read q :=
  lookup_map_write h.objs p q o

theorem Heap.read_free {F Cam : Type} (h : Heap F Cam) (p q : Ptr) :
    (h.free p).read q = if q = p then none else h.read q :=
  lookup_filter_free h.objs p q

theorem Heap.read_alloc_old {F Cam : Type} (h : Heap F Cam) (o o' : Obj F Cam) (q : Ptr)
    (hq : h.read q = some o') : (h.alloc o).2.read q = some o' := by
  simp only [Heap.read, Heap.alloc] at *
  rw [List.lookup_append, hq]
  rfl

/-! ## Going through typed pointers -/

theorem Heap.entityAt_ok_iff {F Cam : Type} (h : Heap F Cam) (p : Ptr) (e : Entity F) :
    h.entityAt p = .ok e ↔ p ≠ nullptr ∧ h.read p = some (.entity e) := by
  unfold Heap.entityAt
  by_cases hp : p = nullptr
  · simp [hp]
  · rw [if_neg hp]
    cases hr : h.read p with
    | none => simp [hp]
    | some o => cases o <;> simp [hp]

theorem Heap.cameraAt_ok_iff {F Cam : Type} (h : Heap F Cam) (p : Ptr) (c : Cam) :
    h.cameraAt p = .ok c ↔ p ≠ nullptr ∧ h.read p = some (.camera c) := by
  unfold Heap.cameraAt
  by_cases hp : p = nullptr
  · simp [hp]
  · rw [if_neg hp]
    cases hr : h.read p with
    | none => simp [hp]
    | some o => cases o <;> simp [hp]

theorem Heap.pixelShaderAt_ok_iff {F Cam : Type} (h : Heap F Cam) (p : Ptr) (f : String) :
    h.pixelShaderAt p = .ok f ↔ p ≠ nullptr ∧ h.read p = some (.pixelShader f) := by
  unfold Heap.pixelShaderAt
  by_cases hp : p = nullptr
  · simp [hp]
  · rw [if_neg hp]
    cases hr : h.read p with
    | none => simp [hp]
    | some o => cases o <;> simp [hp]

theorem Heap.entityAt_write_entity {F Cam : Type} (h : Heap F Cam) (p q : Ptr) (e e' : Entity F)
    (hp : h.entityAt p = .ok e) :
    (h.write p (.entity e')).entityAt q = if q = p then .ok e' else h.entityAt q := by
  obtain ⟨hp0, hr⟩ := (h.entityAt_ok_iff p e).1 hp
  by_cases hq : q = p
  · subst hq
    rw [if_pos rfl, Heap.entityAt_ok_iff]
    exact ⟨hp0, by simp [Heap.read_write, hr]⟩
  · rw [if_neg hq]
    unfold Heap.entityAt
    rw [Heap.read_write, if_neg hq]

theorem Heap.cameraAt_write_entity {F Cam : Type} (h : Heap F Cam) (p q : Ptr) (e e' : Entity F)
    (hp : h.entityAt p = .ok e) :
    (h.write p (.entity e')).cameraAt q = h.cameraAt q := by
  obtain ⟨_, hr⟩ := (h.entityAt_ok_iff p e).1 hp
  unfold Heap.cameraAt
  by_cases hq : q = p
  · subst hq
    simp [Heap.read_write, hr]
  · rw [Heap.read_write, if_neg hq]

theorem Heap.pixelShaderAt_write_entity {F Cam : Type} (h : Heap F Cam) (p q : Ptr)
    (e e' : Entity F) (hp : h.entityAt p = .ok e) :
    (h.write p (.entity e')).pixelShaderAt q = h.pixelShaderAt q := by
  obtain ⟨_, hr⟩ := (h.entityAt_ok_iff p e).1 hp
  unfold Heap.pixelShaderAt
  by_cases hq : q = p
  · subst hq
    simp [Heap.read_write, hr]
  · rw [Heap.read_write, if_neg hq]

theorem Heap.entityAt_write_camera {F Cam : Type} (h : Heap F Cam) (p q : Ptr) (c c' : Cam)
    (hp : h.cameraAt p = .ok c) :
    (h.write p (.camera c')).entityAt q = h.entityAt q := by
  obtain ⟨_, hr⟩ := (h.cameraAt_ok_iff p c).1 hp
  unfold Heap.entityAt
  by_cases hq : q = p
  · subst hq
    simp [Heap.read_write, hr]
  · rw [Heap.read_write, if_neg hq]

theorem Heap.pixelShaderAt_write_camera {F Cam : Type} (h : Heap F Cam) (p q : Ptr) (c c' : Cam)
    (hp : h.cameraAt p = .ok c) :
    (h.write p (.camera c')).pixelShaderAt q = h.pixelShaderAt q := by
  obtain ⟨_, hr⟩ := (h.cameraAt_ok_iff p c).1 hp
  unfold Heap.pixelShaderAt
  by_cases hq : q = p
  · subst hq
    simp [Heap.read_write, hr]
  · rw [Heap.read_write, if_neg hq]

theorem Heap.cameraAt_write_camera {F Cam : Type} (h : Heap F Cam) (p : Ptr) (c c' : Cam)
    (hp : h.cameraAt p = .ok c) :
    (h.write p (.camera c')).cameraAt p = .ok c' := by
  obtain ⟨hp0, hr⟩ := (h.cameraAt_ok_iff p c).1 hp
  rw [Heap.cameraAt_ok_iff]
  exact ⟨hp0, by simp [Heap.read_write, hr]⟩

/-! ## One transform mutation -/

theorem subscript_ok_iff (v : List Ptr) (i : Nat) (p : Ptr) :
    subscript v i = .ok p ↔ v[i]? = some p := by
  unfold subscript
  cases v[i]? <;> simp

theorem Game.onTransform_eq {F Cam : Type} (g : Game F Cam) (i : Nat)
    (m : Transform F → Transform F) (p : Ptr) (e : Entity F)
    (hp : g.entities[i]? = some p) (he : g.heap.entityAt p = .ok e) :
    g.onTransform i m =
      .ok { g with heap := g.heap.write p (.entity { e with transform := m e.transform }) } := by
  have hs : subscript g.entities i = .ok p := (subscript_ok_iff _ _ _).2 hp
  simp [Game.onTransform, hs, he, bind, Except.bind, pure, Except.pure, Entity.GetTransform]

theorem Game.onTransform_step {F Cam : Type} (g : Game F Cam) (hg : g.Ready) (i : Nat)
    (hi : i < 5) (m : Transform F → Transform F) :
    ∃ g', g.onTransform i m = .ok g' ∧ g'.Ready ∧ g.SameScene g' ∧
      (∀ j, g'.transformOf j = if j = i then (g.transformOf j).map m else g.transformOf j) ∧
      g'.heap.cameraAt g'.playerCamera = g.heap.cameraAt g.playerCamera := by
  have hlt : i < g.entities.length := lt_of_lt_of_le hi hg.five
  have hp : g.entities[i]? = some g.entities[i] := List.getElem?_eq_getElem hlt
  obtain ⟨e, he⟩ := hg.live _ (List.getElem_mem hlt)
  refine ⟨_, g.onTransform_eq i m _ e hp he, ?_, ?_, ?_, ?_⟩
  · refine ⟨hg.five, hg.nodup, ?_, ?_⟩
    · intro q hq
      obtain ⟨eq, heq⟩ := hg.live q hq
      simp only [Heap.entityAt_write_entity _ _ _ _ _ he]
      by_cases hqp : q = g.entities[i]
      · exact ⟨_, by rw [if_pos hqp]⟩
      · exact ⟨eq, by rw [if_neg hqp]; exact heq⟩
    · simpa only [Heap.cameraAt_write_entity _ _ _ _ _ he] using hg.camera
  · refine ⟨rfl, rfl, ?_⟩
    intro q
    obtain ⟨_, hr⟩ := (Heap.entityAt_ok_iff _ _ _).1 he
    simp only [Heap.read_write]
    by_cases hqp : q = g.entities[i]
    · subst hqp
      exact Or.inr ⟨.entity e, .entity { e with transform := m e.transform }, hr,
        by simp [hr], by simp [Obj.SameUpToMotion]⟩
    · rw [if_neg hqp]
      cases hq : g.heap.read q with
      | none => exact Or.inl ⟨rfl, rfl⟩
      | some o => exact Or.inr ⟨o, o, rfl, rfl, by cases o <;> simp [Obj.SameUpToMotion]⟩
  · intro j
    unfold Game.transformOf Game.entityOf
    simp only [Heap.entityAt_write_entity _ _ _ _ _ he]
    by_cases hji : j = i
    · subst hji
      simp [hp, he, Entity.GetTransform]
    · rw [if_neg hji]
      cases hj : g.entities[j]? with
      | none => rfl
      | some q =>
        have hne : q ≠ g.entities[i] := by
          intro hq
          apply hji
          have hjl : j < g.entities.length := by
            rcases Nat.lt_or_ge j g.entities.length with h | h
            · exact h
            · rw [List.getElem?_eq_none h] at hj
              cases hj
          exact List.getElem?_inj hjl hg.nodup (by rw [hj, hp, hq])
        simp only [if_neg hne]
  · exact Heap.cameraAt_write_entity _ _ _ _ _ he

/-! ## Frames: what a step leaves alone -/

theorem Obj.sameUpToMotion_refl {F Cam : Type} (o : Obj F Cam) : o.SameUpToMotion o := by
  cases o <;> simp [Obj.SameUpToMotion]

theorem Obj.sameUpToMotion_trans {F Cam : Type} {a b c : Obj F Cam}
    (hab : a.SameUpToMotion b) (hbc : b.SameUpToMotion c) : a.SameUpToMotion c := by
  cases a <;> cases b <;> cases c <;> simp_all [Obj.SameUpToMotion]

theorem Heap.storeSameUpToMotion_refl {F Cam : Type} (h : Heap F Cam) : h.SameUpToMotion h := by
  refine ⟨rfl, fun q => ?_⟩
  cases hq : h.read q with
  | none => exact Or.inl ⟨rfl, rfl⟩
  | some o => exact Or.inr ⟨o, o, rfl, rfl, Obj.sameUpToMotion_refl o⟩

theorem Heap.storeSameUpToMotion_trans {F Cam : Type} {a b c : Heap F Cam}
    (hab : a.SameUpToMotion b) (hbc : b.SameUpToMotion c) : a.SameUpToMotion c := by
  refine ⟨hbc.1.trans hab.1, fun q => ?_⟩
  rcases hab.2 q with ⟨h1, h2⟩ | ⟨o, o', h1, h2, h3⟩
  · rcases hbc.2 q with ⟨_, h4⟩ | ⟨o2, _, h4, _, _⟩
    · exact Or.inl ⟨h1, h4⟩
    · rw [h2] at h4
      cases h4
  · rcases hbc.2 q with ⟨h4, _⟩ | ⟨o2, o3, h4, h5, h6⟩
    · rw [h2] at h4
      cases h4
    · rw [h2] at h4
      cases h4
      exact Or.inr ⟨o, o3, h1, h5, Obj.sameUpToMotion_trans h3 h6⟩

theorem Game.sameScene_refl {F Cam : Type} (g : Game F Cam) : g.SameScene g :=
  ⟨rfl, Heap.storeSameUpToMotion_refl _⟩

theorem Game.sameScene_trans {F Cam : Type} {a b c : Game F Cam}
    (hab : a.SameScene b) (hbc : b.SameScene c) : a.SameScene c := by
  refine ⟨?_, Heap.storeSameUpToMotion_trans hab.2 hbc.2⟩
  have h1 := hab.1
  have h2 := hbc.1
  rw [h2]
  rw [h1]

theorem Game.cameraWrite_step {F Cam : Type} (g : Game F Cam) (hg : g.Ready) (c c' : Cam)
    (hc : g.heap.cameraAt g.playerCamera = .ok c) :
    ({ g with heap := g.heap.write g.playerCamera (.camera c') } : Game F Cam).Ready ∧
    g.SameScene { g with heap := g.heap.write g.playerCamera (.camera c') } ∧
    (∀ j, ({ g with heap := g.heap.write g.playerCamera (.camera c') } : Game F Cam).transformOf j
      = g.transformOf j) ∧
    (g.heap.write g.playerCamera (.camera c')).cameraAt g.playerCamera = .ok c' := by
  refine ⟨⟨hg.five, hg.nodup, ?_, ?_⟩, ⟨rfl, rfl, ?_⟩, ?_, ?_⟩
  · intro q hq
    simpa only [Heap.entityAt_write_camera _ _ _ _ _ hc] using hg.live q hq
  · exact ⟨c', Heap.cameraAt_write_camera _ _ _ _ hc⟩
  · intro q
    obtain ⟨_, hr⟩ := (Heap.cameraAt_ok_iff _ _ _).1 hc
    simp only [Heap.read_write]
    by_cases hqp : q = g.playerCamera
    · subst hqp
      exact Or.inr ⟨.camera c, .camera c', hr, by simp [hr], by simp [Obj.SameUpToMotion]⟩
    · rw [if_neg hqp]
      cases hq : g.heap.read q with
      | none => exact Or.inl ⟨rfl, rfl⟩
      | some o => exact Or.inr ⟨o, o, rfl, rfl, Obj.sameUpToMotion_refl o⟩
  · intro j
    unfold Game.transformOf Game.entityOf
    simp only [Heap.entityAt_write_camera _ _ _ _ _ hc]
  · exact Heap.cameraAt_write_camera _ _ _ _ hc

/-! ## `Update` on a scene that has been set up -/

theorem Game.Update_ready {F Cam : Type} (A : FloatOps F) (C : CameraOps F Cam)
    (input : InputState) (deltaTime totalTime : F) (g : Game F Cam) (hg : g.Ready) :
    ∃ g' c, g.heap.cameraAt g.playerCamera = .ok c ∧
      Game.Update A C input deltaTime totalTime g =
        .ok (g', if input.asyncKeyState VK_ESCAPE ≠ 0 then [Call.Quit] else []) ∧
      g'.Ready ∧ g.SameScene g' ∧
      (∀ j, g'.transformOf j = (g.transformOf j).map (scriptedMotion A deltaTime totalTime j)) ∧
      g'.heap.cameraAt g'.playerCamera = .ok (C.Update deltaTime input c) := by
  obtain ⟨c, hc⟩ := hg.camera
  have hne : g.entities.length ≠ 0 := by have := hg.five; omega
  obtain ⟨g1, e1, r1, s1, t1, c1⟩ := g.onTransform_step hg 0 (by decide) (fun t =>
    t.MoveAbsolute A (A.div (A.neg (A.mul (A.sin totalTime) deltaTime)) (A.lit 3))
      (A.div (A.mul (A.sin totalTime) deltaTime) (A.lit 5)) (A.lit 0))
  obtain ⟨g2, e2, r2, s2, t2, c2⟩ := g1.onTransform_step r1 0 (by decide) (fun t =>
    t.SetPosition t.GetPosition.x t.GetPosition.y (A.neg (A.lit (1/100))))
  obtain ⟨g3, e3, r3, s3, t3, c3⟩ := g2.onTransform_step r2 1 (by decide) (fun t =>
    t.MoveAbsolute A (A.lit 0) (A.mul (A.sin totalTime) deltaTime) (A.lit 0))
  obtain ⟨g4, e4, r4, s4, t4, c4⟩ := g3.onTransform_step r3 2 (by decide) (fun t =>
    t.Rotate A (A.lit 0) (A.mul (A.lit 1) deltaTime) (A.lit 0))
  obtain ⟨g5, e5, r5, s5, t5, c5⟩ := g4.onTransform_step r4 3 (by decide) (fun t =>
    t.MoveAbsolute A (A.lit 0) (A.lit 0) (A.mul (A.mul (A.sin totalTime) deltaTime) (A.lit 2)))
  obtain ⟨g6, e6, r6, s6, t6, c6⟩ := g5.onTransform_step r5 3 (by decide) (fun t =>
    t.MoveAbsolute A (A.div (A.mul (A.sin totalTime) deltaTime) (A.lit 2))
      (A.div (A.neg (A.mul (A.sin totalTime) deltaTime)) (A.lit 2)) (A.lit 0))
  obtain ⟨g7, e7, r7, s7, t7, c7⟩ := g6.onTransform_step r6 3 (by decide) (fun t =>
    t.Rotate A (A.mul (A.neg (A.lit (15/10))) deltaTime) (A.lit 0) (A.lit 0))
  obtain ⟨g8, e8, r8, s8, t8, c8⟩ := g7.onTransform_step r7 4 (by decide) (fun t =>
    t.Rotate A (A.lit 0) (A.lit 0) (A.mul (A.mul (A.sin totalTime) deltaTime) (A.lit 2)))
  have hc8 : g8.heap.cameraAt g8.playerCamera = .ok c := by
    rw [c8, c7, c6, c5, c4, c3, c2, c1, hc]
  obtain ⟨r9, s9, t9, c9⟩ := g8.cameraWrite_step r8 c (C.Update deltaTime input c) hc8
  refine ⟨_, c, hc, ?_, r9, ?_, ?_, c9⟩
  · simp only [Game.Update, if_neg hne, e1, e2, e3, e4, e5, e6, e7, e8, hc8, bind, Except.bind,
      pure, Except.pure]
  · exact Game.sameScene_trans s1 (Game.sameScene_trans s2 (Game.sameScene_trans s3
      (Game.sameScene_trans s4 (Game.sameScene_trans s5 (Game.sameScene_trans s6
      (Game.sameScene_trans s7 (Game.sameScene_trans s8 s9)))))))
  · intro j
    rw [t9, t8, t7, t6, t5, t4, t3, t2, t1]
    match j with
    | 0 => cases g.transformOf 0 <;> simp [scriptedMotion]
    | 1 => cases g.transformOf 1 <;> simp [scriptedMotion]
    | 2 => cases g.transformOf 2 <;> simp [scriptedMotion]
    | 3 => cases g.transformOf 3 <;> simp [scriptedMotion]
    | 4 => cases g.transformOf 4 <;> simp [scriptedMotion]
    | n + 5 => cases g.transformOf (n + 5) <;> simp [scriptedMotion]

/-! ## `Draw` and `OnResize` -/

theorem drawEntities_eq {F Cam : Type} (h : Heap F Cam) (mainCamera : Ptr) (l : List Ptr)
    (hl : ∀ p ∈ l, ∃ e, h.entityAt p = .ok e) :
    drawEntities h mainCamera l = .ok (l.map (fun p => Call.EntityDraw p mainCamera)) := by
  induction l with
  | nil => rfl
  | cons p l ih =>
    obtain ⟨e, he⟩ := hl p (List.mem_cons_self _ _)
    have ih2 := ih (fun q hq => hl q (List.mem_cons_of_mem _ hq))
    simp [drawEntities, he, ih2, bind, Except.bind, pure, Except.pure]

theorem Game.Draw_eq {F Cam : Type} (A : FloatOps F) (C : CameraOps F Cam)
    (deltaTime totalTime : F) (g : Game F Cam) (f : String) (c : Cam)
    (hs : g.heap.pixelShaderAt g.pixelShader = .ok f)
    (hc : g.heap.cameraAt g.playerCamera = .ok c)
    (hl : ∀ p ∈ g.entities, ∃ e, g.heap.entityAt p = .ok e) :
    Game.Draw A C deltaTime totalTime g =
      .ok (g, drawPrologue A C g c ++ g.entities.map (fun p => Call.EntityDraw p g.playerCamera)
        ++ [Call.Present, Call.OMSetRenderTargets]) := by
  simp [Game.Draw, hs, hc, drawEntities_eq g.heap g.playerCamera g.entities hl, bind,
    Except.bind, pure, Except.pure, drawPrologue]

theorem Game.Draw_state {F Cam : Type} (A : FloatOps F) (C : CameraOps F Cam)
    (deltaTime totalTime : F) (g g' : Game F Cam) (calls : List (Call F))
    (h : Game.Draw A C deltaTime totalTime g = .ok (g', calls)) : g' = g := by
  unfold Game.Draw at h
  cases h1 : g.heap.pixelShaderAt g.pixelShader with
  | error x => simp [h1, bind, Except.bind] at h
  | ok f =>
    cases h2 : g.heap.cameraAt g.playerCamera with
    | error x => simp [h1, h2, bind, Except.bind] at h
    | ok c =>
      cases h3 : drawEntities (F := F) g.heap g.playerCamera g.entities with
      | error x => simp [h1, h2, h3, bind, Except.bind] at h
      | ok d =>
        simp [h1, h2, h3, bind, Except.bind, pure, Except.pure] at h
        exact h.1.symm

theorem Game.OnResize_ready {F Cam : Type} (A : FloatOps F) (C : CameraOps F Cam)
    (g : Game F Cam) (hg : g.Ready) :
    ∃ c, g.heap.cameraAt g.playerCamera = .ok c ∧
      Game.OnResize A C g = .ok ({ g with heap := g.heap.write g.playerCamera (.camera
        (C.UpdateProjectionMatrix (A.div (A.ofNat g.width) (A.ofNat g.height)) c)) },
        [Call.DXCoreOnResize]) ∧
      ({ g with heap := g.heap.write g.playerCamera (.camera
        (C.UpdateProjectionMatrix (A.div (A.ofNat g.width) (A.ofNat g.height)) c)) }
        : Game F Cam).Ready := by
  obtain ⟨c, hc⟩ := hg.camera
  have hne : g.playerCamera ≠ nullptr := ((Heap.cameraAt_ok_iff _ _ _).1 hc).1
  refine ⟨c, hc, ?_, (g.cameraWrite_step hg c _ hc).1⟩
  simp [Game.OnResize, hne, hc, bind, Except.bind, pure, Except.pure]

/-! ## The scene `Init` sets up -/

theorem Game.Init_new {F Cam : Type} (A : FloatOps F) (C : CameraOps F Cam) :
    Game.Init A C (Game.new A) = .ok (Game.afterInit A C, [Call.IASetPrimitiveTopology]) := by
  simp [Game.Init, Game.LoadShaders, Game.CreateBasicGeometry, Game.pushMesh, Game.pushMaterial,
    Game.pushEntity, Game.BeginPlay, Game.onTransform, subscript, Heap.alloc, Heap.write,
    Heap.entityAt, Heap.read, Game.new, Game.uninitialized, Heap.empty, bind, Except.bind,
    pure, Except.pure, Game.afterInit, Entity.new, Transform.initial, Transform.MoveAbsolute,
    Transform.SetPosition, Transform.SetScale, Entity.GetTransform, Light.unset, nullptr,
    List.lookup]

theorem Game.afterInit_entities {F Cam : Type} (A : FloatOps F) (C : CameraOps F Cam) :
    (Game.afterInit A C).entities = [13, 14, 15, 16, 17] :=
  rfl

theorem Game.afterInit_ready {F Cam : Type} (A : FloatOps F) (C : CameraOps F Cam) :
    (Game.afterInit A C).Ready := by
  refine ⟨?_, ?_, ?_, ⟨_, rfl⟩⟩
  · rw [Game.afterInit_entities]
    decide
  · rw [Game.afterInit_entities]
    decide
  · intro p hp
    rw [Game.afterInit_entities] at hp
    simp only [List.mem_cons, List.mem_singleton, List.not_mem_nil, or_false] at hp
    rcases hp with rfl | rfl | rfl | rfl | rfl <;> exact ⟨_, rfl⟩

theorem Game.SameScene.pixelShader {F Cam : Type} {g g' : Game F Cam} (h : g.SameScene g')
    (f : String) (hf : g.heap.pixelShaderAt g.pixelShader = .ok f) :
    g'.heap.pixelShaderAt g'.pixelShader = .ok f := by
  obtain ⟨hp0, hr⟩ := (Heap.pixelShaderAt_ok_iff _ _ _).1 hf
  have hp : g'.pixelShader = g.pixelShader := by rw [h.1]
  rw [hp, Heap.pixelShaderAt_ok_iff]
  refine ⟨hp0, ?_⟩
  rcases h.2.2 g.pixelShader with ⟨h1, _⟩ | ⟨o, o', h1, h2, h3⟩
  · rw [hr] at h1
    cases h1
  · rw [hr] at h1
    cases h1
    rw [h2]
    cases o' <;> simp only [Obj.SameUpToMotion] at h3 <;> rw [h3]

theorem Game.Reachable.ready {F Cam : Type} {A : FloatOps F} {C : CameraOps F Cam}
    {g : Game F Cam} (hr : Game.Reachable A C g) :
    g.Ready ∧ g.entities.length = 5 ∧ ∃ f, g.heap.pixelShaderAt g.pixelShader = .ok f := by
  induction hr with
  | init g calls h =>
    rw [Game.Init_new] at h
    cases h
    exact ⟨Game.afterInit_ready A C, rfl, _, rfl⟩
  | update g g' input deltaTime totalTime calls _ h ih =>
    obtain ⟨g2, c, _, h2, r2, s2, _, _⟩ :=
      Game.Update_ready A C input deltaTime totalTime g ih.1
    rw [h2] at h
    cases h
    obtain ⟨f, hf⟩ := ih.2.2
    refine ⟨r2, ?_, f, s2.pixelShader f hf⟩
    rw [s2.1]
    exact ih.2.1
  | draw g g' deltaTime totalTime calls _ h ih =>
    rw [Game.Draw_state A C deltaTime totalTime g g' calls h]
    exact ih
  | resize g g' width height calls _ h ih =>
    have hr2 : ({ g with width := width, height := height } : Game F Cam).Ready :=
      ⟨ih.1.five, ih.1.nodup, ih.1.live, ih.1.camera⟩
    obtain ⟨c, hc, h2, r2⟩ := Game.OnResize_ready A C _ hr2
    rw [h2] at h
    cases h
    obtain ⟨f, hf⟩ := ih.2.2
    exact ⟨r2, ih.2.1, f, by
      rw [Heap.pixelShaderAt_write_camera _ _ _ _ _ hc]
      exact hf⟩

theorem Game.afterInit_transformOf_zero {F Cam : Type} (A : FloatOps F) (C : CameraOps F Cam) :
    (Game.afterInit A C).transformOf 0 = some
      { position := ⟨A.add (A.lit 0) (A.lit 3), A.add (A.lit 0) (A.lit 0),
          A.add (A.lit 0) (A.lit 1)⟩
        rotation := ⟨A.lit 0, A.lit 0, A.lit 0⟩
        scale := ⟨A.lit 1, A.lit 1, A.lit 1⟩ } :=
  rfl

theorem ratOps_zeroLaws : ZeroLaws ratOps := by
  refine ⟨?_, ?_, ?_, ?_, ?_, ?_⟩ <;> intros <;> simp [ratOps]

/-! ## Further facts about `Update` and `BeginPlay` -/

theorem bind_ok_iff {ε α β : Type} (x : Except ε α) (f : α → Except ε β) (b : β) :
    x.bind f = .ok b ↔ ∃ a, x = .ok a ∧ f a = .ok b := by
  cases x <;> simp [Except.bind]

theorem Game.Update_calls {F Cam : Type} (A : FloatOps F) (C : CameraOps F Cam)
    (input : InputState) (deltaTime totalTime : F) (g g' : Game F Cam) (calls : List (Call F))
    (h : Game.Update A C input deltaTime totalTime g = .ok (g', calls)) :
    calls = if input.asyncKeyState VK_ESCAPE ≠ 0 then [Call.Quit] else [] := by
  unfold Game.Update at h
  by_cases h0 : g.entities.length = 0
  · simp only [h0, if_true, pure, Except.pure, Except.ok.injEq, Prod.mk.injEq] at h
    exact h.2.symm
  · simp only [if_neg h0, bind, pure, Except.pure] at h
    rw [bind_ok_iff] at h
    obtain ⟨g1, -, h⟩ := h
    rw [bind_ok_iff] at h
    obtain ⟨g2, -, h⟩ := h
    rw [bind_ok_iff] at h
    obtain ⟨g3, -, h⟩ := h
    rw [bind_ok_iff] at h
    obtain ⟨g4, -, h⟩ := h
    rw [bind_ok_iff] at h
    obtain ⟨g5, -, h⟩ := h
    rw [bind_ok_iff] at h
    obtain ⟨g6, -, h⟩ := h
    rw [bind_ok_iff] at h
    obtain ⟨g7, -, h⟩ := h
    rw [bind_ok_iff] at h
    obtain ⟨g8, -, h⟩ := h
    rw [bind_ok_iff] at h
    obtain ⟨c, -, h⟩ := h
    simp only [Except.ok.injEq, Prod.mk.injEq] at h
    exact h.2.symm

theorem Game.Update_empty {F Cam : Type} (A : FloatOps F) (C : CameraOps F Cam)
    (input : InputState) (deltaTime totalTime : F) (g : Game F Cam) (h : g.entities = []) :
    Game.Update A C input deltaTime totalTime g =
      .ok (g, if input.asyncKeyState VK_ESCAPE ≠ 0 then [Call.Quit] else []) := by
  simp [Game.Update, h, pure, Except.pure]

theorem Game.BeginPlay_empty {F Cam : Type} (A : FloatOps F) (g : Game F Cam)
    (h : g.entities = []) : g.BeginPlay A = .ok g := by
  simp [Game.BeginPlay, h, pure, Except.pure]

theorem Game.cameraOf_eq {F Cam : Type} (g : Game F Cam) (c : Cam)
    (h : g.heap.cameraAt g.playerCamera = .ok c) : g.cameraOf = some c := by
  simp [Game.cameraOf, h]

theorem Game.SameScene.kept {F Cam : Type} {g g' : Game F Cam} (h : g.SameScene g') :
    g.CollectionsKept g' := by
  obtain ⟨hf, -, hq⟩ := h
  have hm : g'.meshes = g.meshes := by rw [hf]
  have ht : g'.materials = g.materials := by rw [hf]
  have he : g'.entities = g.entities := by rw [hf]
  refine ⟨hm, ht, he, ?_, ?_⟩
  · intro i e hi
    unfold Game.entityOf at hi ⊢
    rw [he]
    cases hp : g.entities[i]? with
    | none => simp [hp] at hi
    | some p =>
      simp only [hp] at hi ⊢
      cases hx : g.heap.entityAt p with
      | error x => simp [hx] at hi
      | ok e0 =>
        simp only [hx, Option.some.injEq] at hi
        subst hi
        obtain ⟨hp0, hr⟩ := (Heap.entityAt_ok_iff _ _ _).1 hx
        rcases hq p with ⟨h1, _⟩ | ⟨o, o', h1, h2, h3⟩
        · rw [hr] at h1
          cases h1
        · rw [hr] at h1
          cases h1
          cases o' with
          | entity e' =>
            have h4 : e'.mesh = e0.mesh ∧ e'.material = e0.material := h3
            have : g'.heap.entityAt p = .ok e' := (Heap.entityAt_ok_iff _ _ _).2 ⟨hp0, h2⟩
            exact ⟨e', by simp [this], h4.1, h4.2⟩
          | _ => simp [Obj.SameUpToMotion] at h3
  · intro p o hr hne hnc
    rcases hq p with ⟨h1, _⟩ | ⟨o1, o', h1, h2, h3⟩
    · rw [hr] at h1
      cases h1
    · rw [hr] at h1
      cases h1
      rw [h2]
      cases o <;> cases o' <;> simp only [Obj.SameUpToMotion] at h3 <;>
        first
          | exact absurd rfl (hne _)
          | exact absurd rfl (hnc _)
          | (cases h3; rfl)
          | cases h3

/-! ## Teardown -/

theorem getD_mem (v : List Ptr) (i : Nat) (hi : i < v.length) : v.getD i nullptr ∈ v := by
  rw [List.getD_eq_getElem _ _ hi]
  exact List.getElem_mem hi

theorem subscript_getD (v : List Ptr) (i : Nat) (hi : i < v.length) :
    subscript v i = .ok (v.getD i nullptr) := by
  rw [subscript_ok_iff, List.getD_eq_getElem _ _ hi]
  exact List.getElem?_eq_getElem hi

theorem getD_inj (v : List Ptr) (hv : v.Nodup) (i j : Nat) (hi : i < v.length)
    (hj : j < v.length) (h : v.getD i nullptr = v.getD j nullptr) : i = j := by
  rw [List.getD_eq_getElem _ _ hi, List.getD_eq_getElem _ _ hj] at h
  exact (List.Nodup.getElem_inj_iff hv).1 h

theorem range_map_getD (v : List Ptr) :
    (List.range v.length).map (fun i => v.getD i nullptr) = v := by
  apply List.ext_getElem
  · simp
  · intro n h1 h2
    simp only [List.getElem_map, List.getElem_range]
    exact List.getD_eq_getElem _ _ h2

theorem Owner.owns_unique {F Cam : Type} (a b : Owner) (o : Obj F Cam)
    (ha : a.owns o = true) (hb : b.owns o = true) : a = b := by
  cases a <;> cases b <;> cases o <;> simp_all [Owner.owns]

theorem Heap.delete_live {F Cam : Type} (h : Heap F Cam) (owner : Owner) (p : Ptr)
    (o : Obj F Cam) (hp : p ≠ nullptr) (hr : h.read p = some o) (ho : owner.owns o = true) :
    h.delete owner p = .ok (h.free p, [⟨owner, p⟩]) := by
  simp [Heap.delete, hp, hr, ho, pure, Except.pure]

theorem Heap.freedFrom_append {F Cam : Type} {a b c : Heap F Cam} {d1 d2 : List Ptr}
    (h1 : a.FreedFrom b d1) (h2 : b.FreedFrom c d2) : a.FreedFrom c (d1 ++ d2) := by
  intro q
  rw [h2 q, h1 q]
  by_cases hq1 : q ∈ d1 <;> by_cases hq2 : q ∈ d2 <;> simp [hq1, hq2]

theorem deleteAll_eq {F Cam : Type} (owner : Owner) (v : List Ptr) (hv : v.Nodup) :
    ∀ (schedule : List Nat) (h : Heap F Cam), schedule.Nodup →
      (∀ i ∈ schedule, i < v.length) →
      (∀ i ∈ schedule, v.getD i nullptr ≠ nullptr ∧
        ∃ o, h.read (v.getD i nullptr) = some o ∧ owner.owns o = true) →
      ∃ h', deleteAll owner v schedule h = .ok (h', phaseTrace owner v schedule) ∧
        h.FreedFrom h' (schedule.map (fun i => v.getD i nullptr)) := by
  intro schedule
  induction schedule with
  | nil =>
    intro h _ _ _
    exact ⟨h, rfl, fun q => by simp⟩
  | cons i rest ih =>
    intro h hs hb hl
    have hi : i < v.length := hb i (List.mem_cons_self _ _)
    obtain ⟨hne, o, hro, hown⟩ := hl i (List.mem_cons_self _ _)
    have hs' := List.nodup_cons.1 hs
    have hrest : ∀ j ∈ rest, v.getD j nullptr ≠ nullptr ∧
        ∃ o, (h.free (v.getD i nullptr)).read (v.getD j nullptr) = some o ∧
          owner.owns o = true := by
      intro j hj
      obtain ⟨hjn, oj, hrj, hoj⟩ := hl j (List.mem_cons_of_mem _ hj)
      have hjl : j < v.length := hb j (List.mem_cons_of_mem _ hj)
      have hji : v.getD j nullptr ≠ v.getD i nullptr := by
        intro heq
        have := getD_inj v hv j i hjl hi heq
        subst this
        exact hs'.1 hj
      exact ⟨hjn, oj, by rw [Heap.read_free, if_neg hji]; exact hrj, hoj⟩
    obtain ⟨h', hd, hrd⟩ := ih (h.free (v.getD i nullptr)) hs'.2
      (fun j hj => hb j (List.mem_cons_of_mem _ hj)) hrest
    refine ⟨h', ?_, ?_⟩
    · simp only [deleteAll, subscript_getD v i hi, Heap.delete_live h owner _ o hne hro hown,
        hd, bind, Except.bind, pure, Except.pure, phaseTrace, List.map_cons,
        List.singleton_append]
    · intro q
      rw [hrd q, Heap.read_free]
      by_cases hq1 : q = v.getD i nullptr
      · simp [hq1]
      · by_cases hq2 : q ∈ rest.map (fun i => v.getD i nullptr)
        · rw [if_pos hq2, if_pos (by simp only [List.map_cons, List.mem_cons]; exact Or.inr hq2)]
        · rw [if_neg hq2, if_neg hq1, if_neg (by
            simp only [List.map_cons, List.mem_cons]
            exact fun hc => hc.elim hq1 hq2)]

theorem Heap.delete_releaseOf {F Cam : Type} (h : Heap F Cam) (owner : Owner) (p : Ptr)
    (hl : p = nullptr ∨ ∃ o, h.read p = some o ∧ owner.owns o = true) :
    ∃ h', h.delete owner p = .ok (h', releaseOf owner p) ∧
      h.FreedFrom h' ((releaseOf owner p).map Release.addr) := by
  by_cases hp : p = nullptr
  · refine ⟨h, by simp [Heap.delete, hp, releaseOf, pure, Except.pure], fun q => ?_⟩
    simp [releaseOf, hp]
  · rcases hl with hl | ⟨o, hr, ho⟩
    · exact absurd hl hp
    · refine ⟨h.free p, ?_, fun q => ?_⟩
      · rw [Heap.delete_live h owner p o hp hr ho]
        simp [releaseOf, hp]
      · rw [Heap.read_free]
        simp [releaseOf, hp]

theorem Heap.OwnedBy.append {F Cam : Type} {h : Heap F Cam} {d1 d2 : List Ptr}
    {o1 o2 : List Owner} (h1 : h.OwnedBy d1 o1) (h2 : h.OwnedBy d2 o2) :
    h.OwnedBy (d1 ++ d2) (o1 ++ o2) := by
  intro q hq
  rcases List.mem_append.1 hq with hq | hq
  · obtain ⟨o, own, a, b, c⟩ := h1 q hq
    exact ⟨o, own, a, b, List.mem_append_left _ c⟩
  · obtain ⟨o, own, a, b, c⟩ := h2 q hq
    exact ⟨o, own, a, b, List.mem_append_right _ c⟩

theorem Heap.OwnedBy.not_mem {F Cam : Type} {h : Heap F Cam} {dead : List Ptr}
    {owners : List Owner} (hd : h.OwnedBy dead owners) (p : Ptr) (o : Obj F Cam) (own : Owner)
    (hr : h.read p = some o) (ho : own.owns o = true) (hn : own ∉ owners) : p ∉ dead := by
  intro hp
  obtain ⟨o', own', a, b, c⟩ := hd p hp
  rw [hr] at a
  cases a
  exact hn (Owner.owns_unique own own' o ho b ▸ c)

theorem Heap.OwnedBy.phase {F Cam : Type} (h : Heap F Cam) (owner : Owner) (v : List Ptr)
    (schedule : List Nat) (hb : ∀ i ∈ schedule, i < v.length)
    (hl : ∀ p ∈ v, ∃ o, h.read p = some o ∧ owner.owns o = true) :
    h.OwnedBy (schedule.map (fun i => v.getD i nullptr)) [owner] := by
  intro q hq
  obtain ⟨i, hi, rfl⟩ := List.mem_map.1 hq
  obtain ⟨o, hr, ho⟩ := hl _ (getD_mem v i (hb i hi))
  exact ⟨o, owner, hr, ho, List.mem_singleton.2 rfl⟩

theorem Heap.OwnedBy.single {F Cam : Type} (h : Heap F Cam) (owner : Owner) (p : Ptr)
    (hl : p = nullptr ∨ ∃ o, h.read p = some o ∧ owner.owns o = true) :
    h.OwnedBy ((releaseOf owner p).map Release.addr) [owner] := by
  intro q hq
  by_cases hp : p = nullptr
  · simp [releaseOf, hp] at hq
  · rcases hl with hl | ⟨o, hr, ho⟩
    · exact absurd hl hp
    · simp [releaseOf, hp] at hq
      subst hq
      exact ⟨o, owner, hr, ho, List.mem_singleton.2 rfl⟩

theorem phase_live {F Cam : Type} (h h' : Heap F Cam) (dead : List Ptr) (owners : List Owner)
    (hf : h.FreedFrom h' dead) (hd : h.OwnedBy dead owners) (owner : Owner)
    (hn : owner ∉ owners) (v : List Ptr) (schedule : List Nat)
    (hb : ∀ i ∈ schedule, i < v.length)
    (hl : ∀ p ∈ v, p ≠ nullptr ∧ ∃ o, h.read p = some o ∧ owner.owns o = true) :
    ∀ i ∈ schedule, v.getD i nullptr ≠ nullptr ∧
      ∃ o, h'.read (v.getD i nullptr) = some o ∧ owner.owns o = true := by
  intro i hi
  obtain ⟨hne, o, hr, ho⟩ := hl _ (getD_mem v i (hb i hi))
  refine ⟨hne, o, ?_, ho⟩
  rw [hf _, if_neg (hd.not_mem _ o owner hr ho hn)]
  exact hr

theorem single_live {F Cam : Type} (h h' : Heap F Cam) (dead : List Ptr) (owners : List Owner)
    (hf : h.FreedFrom h' dead) (hd : h.OwnedBy dead owners) (owner : Owner)
    (hn : owner ∉ owners) (p : Ptr)
    (hl : p = nullptr ∨ ∃ o, h.read p = some o ∧ owner.owns o = true) :
    p = nullptr ∨ ∃ o, h'.read p = some o ∧ owner.owns o = true := by
  rcases hl with hl | ⟨o, hr, ho⟩
  · exact Or.inl hl
  · refine Or.inr ⟨o, ?_, ho⟩
    rw [hf _, if_neg (hd.not_mem _ o owner hr ho hn)]
    exact hr

theorem Game.destructor_eq {F Cam : Type} (g : Game F Cam) (hg : g.Owned)
    (se sm sg : List Nat) (he : se.Perm (List.range g.entities.length))
    (hm : sm.Perm (List.range g.materials.length))
    (hgm : sg.Perm (List.range g.meshes.length)) :
    ∃ h1 h', deleteAll .entities g.entities se g.heap =
        .ok (h1, phaseTrace .entities g.entities se) ∧
      g.heap.FreedFrom h1 (se.map (fun i => g.entities.getD i nullptr)) ∧
      g.destructor se sm sg = .ok (h', g.teardownTrace se sm sg) ∧
      g.heap.FreedFrom h' ((g.teardownTrace se sm sg).map Release.addr) := by
  have nse : se.Nodup := he.nodup_iff.2 (List.nodup_range _)
  have nsm : sm.Nodup := hm.nodup_iff.2 (List.nodup_range _)
  have nsg : sg.Nodup := hgm.nodup_iff.2 (List.nodup_range _)
  have bse : ∀ i ∈ se, i < g.entities.length := fun i hi => List.mem_range.1 (he.mem_iff.1 hi)
  have bsm : ∀ i ∈ sm, i < g.materials.length := fun i hi => List.mem_range.1 (hm.mem_iff.1 hi)
  have bsg : ∀ i ∈ sg, i < g.meshes.length := fun i hi => List.mem_range.1 (hgm.mem_iff.1 hi)
  have le : ∀ p ∈ g.entities, p ≠ nullptr ∧
      ∃ o, g.heap.read p = some o ∧ Owner.entities.owns o = true := fun p hp =>
    ⟨(hg.entities_live p hp).1, by
      obtain ⟨e, h⟩ := (hg.entities_live p hp).2
      exact ⟨_, h, rfl⟩⟩
  have lm : ∀ p ∈ g.materials, p ≠ nullptr ∧
      ∃ o, g.heap.read p = some o ∧ Owner.materials.owns o = true := fun p hp =>
    ⟨(hg.materials_live p hp).1, by
      obtain ⟨e, h⟩ := (hg.materials_live p hp).2
      exact ⟨_, h, rfl⟩⟩
  have lg : ∀ p ∈ g.meshes, p ≠ nullptr ∧
      ∃ o, g.heap.read p = some o ∧ Owner.meshes.owns o = true := fun p hp =>
    ⟨(hg.meshes_live p hp).1, by
      obtain ⟨e, h⟩ := (hg.meshes_live p hp).2
      exact ⟨_, h, rfl⟩⟩
  have lc : g.playerCamera = nullptr ∨
      ∃ o, g.heap.read g.playerCamera = some o ∧ Owner.playerCamera.owns o = true := by
    rcases hg.camera_live with h | ⟨c, h⟩
    · exact Or.inl h
    · exact Or.inr ⟨_, h, rfl⟩
  have lp : g.pixelShader = nullptr ∨
      ∃ o, g.heap.read g.pixelShader = some o ∧ Owner.pixelShader.owns o = true := by
    rcases hg.pixelShader_live with h | ⟨c, h⟩
    · exact Or.inl h
    · exact Or.inr ⟨_, h, rfl⟩
  have lv : g.vertexShader = nullptr ∨
      ∃ o, g.heap.read g.vertexShader = some o ∧ Owner.vertexShader.owns o = true := by
    rcases hg.vertexShader_live with h | ⟨c, h⟩
    · exact Or.inl h
    · exact Or.inr ⟨_, h, rfl⟩
  -- the entity phase
  obtain ⟨h1, e1, f1⟩ := deleteAll_eq Owner.entities g.entities hg.entities_nodup se g.heap nse
    bse (fun i hi => le _ (getD_mem _ i (bse i hi)))
  have o1 := Heap.OwnedBy.phase g.heap Owner.entities g.entities se bse (fun p hp => (le p hp).2)
  -- the material phase
  obtain ⟨h2, e2, f2⟩ := deleteAll_eq Owner.materials g.materials hg.materials_nodup sm h1 nsm
    bsm (phase_live g.heap h1 _ _ f1 o1 Owner.materials (by decide) g.materials sm bsm lm)
  have f12 := Heap.freedFrom_append f1 f2
  have o12 := o1.append (Heap.OwnedBy.phase g.heap Owner.materials g.materials sm bsm
    (fun p hp => (lm p hp).2))
  -- the mesh phase
  obtain ⟨h3, e3, f3⟩ := deleteAll_eq Owner.meshes g.meshes hg.meshes_nodup sg h2 nsg
    bsg (phase_live g.heap h2 _ _ f12 o12 Owner.meshes (by decide) g.meshes sg bsg lg)
  have f123 := Heap.freedFrom_append f12 f3
  have o123 := o12.append (Heap.OwnedBy.phase g.heap Owner.meshes g.meshes sg bsg
    (fun p hp => (lg p hp).2))
  -- the camera and the two shaders
  obtain ⟨h4, e4, f4⟩ := Heap.delete_releaseOf h3 Owner.playerCamera g.playerCamera
    (single_live g.heap h3 _ _ f123 o123 Owner.playerCamera (by decide) _ lc)
  have f1234 := Heap.freedFrom_append f123 f4
  have o1234 := o123.append (Heap.OwnedBy.single g.heap Owner.playerCamera g.playerCamera lc)
  obtain ⟨h5, e5, f5⟩ := Heap.delete_releaseOf h4 Owner.pixelShader g.pixelShader
    (single_live g.heap h4 _ _ f1234 o1234 Owner.pixelShader (by decide) _ lp)
  have f12345 := Heap.freedFrom_append f1234 f5
  have o12345 := o1234.append (Heap.OwnedBy.single g.heap Owner.pixelShader g.pixelShader lp)
  obtain ⟨h6, e6, f6⟩ := Heap.delete_releaseOf h5 Owner.vertexShader g.vertexShader
    (single_live g.heap h5 _ _ f12345 o12345 Owner.vertexShader (by decide) _ lv)
  have f123456 := Heap.freedFrom_append f12345 f6
  refine ⟨h1, h6, e1, f1, ?_, ?_⟩
  · simp only [Game.destructor, e1, e2, e3, e4, e5, e6, bind, Except.bind, pure, Except.pure,
      Game.teardownTrace]
  · simpa only [Game.teardownTrace, phaseTrace, List.map_append, List.map_map,
      Function.comp_def] using f123456

theorem phaseTrace_mem {owner : Owner} {v : List Ptr} {schedule : List Nat} {r : Release}
    (hb : ∀ i ∈ schedule, i < v.length) (hr : r ∈ phaseTrace owner v schedule) :
    r.owner = owner ∧ r.addr ∈ v := by
  obtain ⟨i, hi, rfl⟩ := List.mem_map.1 hr
  exact ⟨rfl, getD_mem v i (hb i hi)⟩

theorem releaseOf_mem {owner : Owner} {p : Ptr} {r : Release} (hr : r ∈ releaseOf owner p) :
    r.owner = owner ∧ r.addr = p ∧ p ≠ nullptr := by
  unfold releaseOf at hr
  by_cases hp : p = nullptr
  · simp [hp] at hr
  · simp only [if_neg hp, List.mem_singleton] at hr
    subst hr
    exact ⟨rfl, rfl, hp⟩

theorem phaseTrace_perm (owner : Owner) (v : List Ptr) (schedule : List Nat)
    (hs : schedule.Perm (List.range v.length)) :
    (phaseTrace owner v schedule).Perm (v.map (fun p => (⟨owner, p⟩ : Release))) := by
  have h1 := hs.map (fun i => (⟨owner, v.getD i nullptr⟩ : Release))
  have h2 : (List.range v.length).map (fun i => (⟨owner, v.getD i nullptr⟩ : Release)) =
      v.map (fun p => (⟨owner, p⟩ : Release)) := by
    conv_rhs => rw [← range_map_getD v]
    rw [List.map_map]
    rfl
  rw [h2] at h1
  exact h1

theorem Precedes.of_append (P Q : Release → Prop) (a b : List Release)
    (ha : ∀ r ∈ a, ¬ Q r) (hb : ∀ r ∈ b, ¬ P r) : Precedes P Q (a ++ b) := by
  intro i j x y hi hj hP hQ
  have h1 : i < a.length := by
    by_contra hge
    rw [List.getElem?_append_right (by omega)] at hi
    exact hb x (List.mem_iff_getElem?.2 ⟨_, hi⟩) hP
  have h2 : a.length ≤ j := by
    by_contra hlt
    rw [List.getElem?_append_left (by omega)] at hj
    exact ha y (List.mem_iff_getElem?.2 ⟨_, hj⟩) hQ
  omega

theorem Game.teardownTrace_typed {F Cam : Type} (g : Game F Cam) (hg : g.Owned)
    (se sm sg : List Nat) (bse : ∀ i ∈ se, i < g.entities.length)
    (bsm : ∀ i ∈ sm, i < g.materials.length) (bsg : ∀ i ∈ sg, i < g.meshes.length)
    (r : Release) (hr : r ∈ g.teardownTrace se sm sg) :
    ∃ o, g.heap.read r.addr = some o ∧ r.owner.owns o = true := by
  simp only [Game.teardownTrace, List.mem_append] at hr
  rcases hr with ((((hr | hr) | hr) | hr) | hr) | hr
  · obtain ⟨h1, h2⟩ := phaseTrace_mem bse hr
    obtain ⟨e, he⟩ := (hg.entities_live _ h2).2
    exact ⟨_, he, by rw [h1]; rfl⟩
  · obtain ⟨h1, h2⟩ := phaseTrace_mem bsm hr
    obtain ⟨e, he⟩ := (hg.materials_live _ h2).2
    exact ⟨_, he, by rw [h1]; rfl⟩
  · obtain ⟨h1, h2⟩ := phaseTrace_mem bsg hr
    obtain ⟨e, he⟩ := (hg.meshes_live _ h2).2
    exact ⟨_, he, by rw [h1]; rfl⟩
  · obtain ⟨h1, h2, h3⟩ := releaseOf_mem hr
    rcases hg.camera_live with h | ⟨c, h⟩
    · exact absurd h h3
    · exact ⟨_, by rw [h2]; exact h, by rw [h1]; rfl⟩
  · obtain ⟨h1, h2, h3⟩ := releaseOf_mem hr
    rcases hg.pixelShader_live with h | ⟨c, h⟩
    · exact absurd h h3
    · exact ⟨_, by rw [h2]; exact h, by rw [h1]; rfl⟩
  · obtain ⟨h1, h2, h3⟩ := releaseOf_mem hr
    rcases hg.vertexShader_live with h | ⟨c, h⟩
    · exact absurd h h3
    · exact ⟨_, by rw [h2]; exact h, by rw [h1]; rfl⟩

theorem Game.teardownTrace_count {F Cam : Type} (g : Game F Cam) (se sm sg : List Nat)
    (owner : Owner) (v : List Ptr) (schedule : List Nat) (hv : v.Nodup)
    (hs : schedule.Perm (List.range v.length)) (p : Ptr) (hp : p ∈ v)
    (a b : List Release) (ht : g.teardownTrace se sm sg = a ++ phaseTrace owner v schedule ++ b)
    (ha : ∀ r ∈ a, r.owner ≠ owner) (hb : ∀ r ∈ b, r.owner ≠ owner) :
    (g.teardownTrace se sm sg).count ⟨owner, p⟩ = 1 := by
  have hinj : Function.Injective (fun q => (⟨owner, q⟩ : Release)) := by
    intro x y hxy
    simpa using hxy
  have h1 : (phaseTrace owner v schedule).count ⟨owner, p⟩ = 1 := by
    rw [(phaseTrace_perm owner v schedule hs).count_eq]
    exact List.count_eq_one_of_mem (hv.map hinj) (List.mem_map.2 ⟨p, hp, rfl⟩)
  have h2 : a.count ⟨owner, p⟩ = 0 := List.count_eq_zero.2 (fun h => ha _ h rfl)
  have h3 : b.count ⟨owner, p⟩ = 0 := List.count_eq_zero.2 (fun h => hb _ h rfl)
  rw [ht, List.count_append, List.count_append, h1, h2, h3]

theorem Game.afterInit_owned {F Cam : Type} (A : FloatOps F) (C : CameraOps F Cam) :
    (Game.afterInit A C).Owned := by
  refine ⟨?_, ?_, ?_, ?_, ?_, ?_, Or.inr ⟨_, rfl⟩, Or.inr ⟨_, rfl⟩, Or.inr ⟨_, rfl⟩⟩
  · show ([13, 14, 15, 16, 17] : List Ptr).Nodup
    decide
  · show ([8, 9, 10, 11, 12] : List Ptr).Nodup
    decide
  · show ([3, 4, 5, 6, 7] : List Ptr).Nodup
    decide
  · intro p hp
    have hp' : p ∈ ([13, 14, 15, 16, 17] : List Ptr) := hp
    simp only [List.mem_cons, List.mem_singleton, List.not_mem_nil, or_false] at hp'
    rcases hp' with rfl | rfl | rfl | rfl | rfl <;> exact ⟨by decide, _, rfl⟩
  · intro p hp
    have hp' : p ∈ ([8, 9, 10, 11, 12] : List Ptr) := hp
    simp only [List.mem_cons, List.mem_singleton, List.not_mem_nil, or_false] at hp'
    rcases hp' with rfl | rfl | rfl | rfl | rfl <;> exact ⟨by decide, _, rfl⟩
  · intro p hp
    have hp' : p ∈ ([3, 4, 5, 6, 7] : List Ptr) := hp
    simp only [List.mem_cons, List.mem_singleton, List.not_mem_nil, or_false] at hp'
    rcases hp' with rfl | rfl | rfl | rfl | rfl <;> exact ⟨by decide, _, rfl⟩

theorem Game.pushEntity_frame {F Cam : Type} (A : FloatOps F) (g g' : Game F Cam) (i j : Nat)
    (h : g.pushEntity A i j = .ok g') :
    g'.meshes = g.meshes ∧ g'.materials = g.materials ∧
      ∀ p o, g.heap.read p = some o → g'.heap.read p = some o := by
  unfold Game.pushEntity at h
  simp only [bind, pure, Except.pure] at h
  rw [bind_ok_iff] at h
  obtain ⟨m, -, h⟩ := h
  rw [bind_ok_iff] at h
  obtain ⟨mat, -, h⟩ := h
  simp only [Except.ok.injEq] at h
  subst h
  exact ⟨rfl, rfl, fun p o hr => Heap.read_alloc_old g.heap _ o p hr⟩

/-! ## Properties of the specification -/

/-- C1, as the code has it refuted: on the scene `Init` sets up (exact rational
arithmetic, no key down), `Update(0, 0)` returns normally and moves entity 0 from
position (3, 0, 1) to (3, 0, -1/100), so one transform does change. -/
theorem C1_update_zero_changes_entity0 :
    Game.Init ratOps simpleCamera (Game.new ratOps) =
      .ok (Game.afterInit ratOps simpleCamera, [Call.IASetPrimitiveTopology]) ∧
    ∃ g', Game.Update ratOps simpleCamera noKeys 0 0 (Game.afterInit ratOps simpleCamera) =
        .ok (g', []) ∧
      (Game.afterInit ratOps simpleCamera).transformOf 0 =
        some ⟨⟨3, 0, 1⟩, ⟨0, 0, 0⟩, ⟨1, 1, 1⟩⟩ ∧
      g'.transformOf 0 = some ⟨⟨3, 0, -1/100⟩, ⟨0, 0, 0⟩, ⟨1, 1, 1⟩⟩ ∧
      g'.transformOf 0 ≠ (Game.afterInit ratOps simpleCamera).transformOf 0 := by
  refine ⟨Game.Init_new _ _, ?_⟩
  obtain ⟨g', c, _, hu, _, _, ht, _⟩ := Game.Update_ready ratOps simpleCamera noKeys 0 0
    (Game.afterInit ratOps simpleCamera) (Game.afterInit_ready _ _)
  have h0 : (Game.afterInit ratOps simpleCamera).transformOf 0 =
      some ⟨⟨3, 0, 1⟩, ⟨0, 0, 0⟩, ⟨1, 1, 1⟩⟩ := by
    rw [Game.afterInit_transformOf_zero]
    simp [ratOps]
  have h1 : g'.transformOf 0 = some ⟨⟨3, 0, -1/100⟩, ⟨0, 0, 0⟩, ⟨1, 1, 1⟩⟩ := by
    rw [ht 0, h0]
    simp [scriptedMotion, Transform.MoveAbsolute, Transform.SetPosition, Transform.GetPosition,
      ratOps]
    norm_num
  refine ⟨g', ?_, h0, h1, ?_⟩
  · simpa [noKeys] using hu
  · rw [h0, h1]
    intro h
    simp only [Option.some.injEq, Transform.mk.injEq, Vec3.mk.injEq] at h
    norm_num at h

/-- C1, amended: on the scene `Init` sets up, with no exit signal and under the
laws of zero, `Update(0, 0)` returns normally and leaves the transform of every
entity other than entity 0 exactly as it was, as well as the rotation, the
scale and the x and y position of entity 0; the z position of entity 0 is
overwritten with the constant -0.01. -/
theorem C1_update_zero_overwrites_only_z {F Cam : Type} (A : FloatOps F) (C : CameraOps F Cam)
    (hz : ZeroLaws A) (input : InputState) (hesc : input.asyncKeyState VK_ESCAPE = 0) :
    Game.Init A C (Game.new A) = .ok (Game.afterInit A C, [Call.IASetPrimitiveTopology]) ∧
    ∃ g' t, Game.Update A C input (A.lit 0) (A.lit 0) (Game.afterInit A C) = .ok (g', []) ∧
      (∀ i, 1 ≤ i → g'.transformOf i = (Game.afterInit A C).transformOf i) ∧
      (Game.afterInit A C).transformOf 0 = some t ∧
      g'.transformOf 0 = some
        { t with position := ⟨t.position.x, t.position.y, A.neg (A.lit (1/100))⟩ } := by
  refine ⟨Game.Init_new _ _, ?_⟩
  obtain ⟨g', c, _, hu, _, _, ht, _⟩ := Game.Update_ready A C input (A.lit 0) (A.lit 0)
    (Game.afterInit A C) (Game.afterInit_ready _ _)
  have h3 : (3 : ℚ) ≠ 0 := by norm_num
  have h5 : (5 : ℚ) ≠ 0 := by norm_num
  have h2 : (2 : ℚ) ≠ 0 := by norm_num
  have hn : A.neg (A.lit 0) = A.lit 0 := by simpa using hz.neg_lit 0
  have hoff : A.mul (A.sin (A.lit 0)) (A.lit 0) = A.lit 0 := by
    rw [hz.sin_zero, hz.mul_zero]
  refine ⟨g', _, ?_, ?_, Game.afterInit_transformOf_zero A C, ?_⟩
  · simpa [hesc] using hu
  · intro i hi
    rw [ht i]
    match i, hi with
    | 1, _ =>
      show Option.map _ (some _) = some _
      simp [scriptedMotion, Transform.MoveAbsolute, Entity.GetTransform, hoff, hz.add_zero]
    | 2, _ =>
      show Option.map _ (some _) = some _
      simp [scriptedMotion, Transform.Rotate, Entity.GetTransform, hz.mul_zero, hz.add_zero]
    | 3, _ =>
      show Option.map _ (some _) = some _
      simp [scriptedMotion, Transform.MoveAbsolute, Transform.Rotate, Transform.initial,
        Entity.GetTransform, hoff, hz.neg_lit, hz.mul_zero, hz.zero_mul, hz.add_zero,
        hz.zero_div 2 h2, hn]
    | 4, _ =>
      show Option.map _ (some _) = some _
      simp [scriptedMotion, Transform.Rotate, Entity.GetTransform, hoff, hz.zero_mul,
        hz.add_zero]
    | n + 5, _ =>
      cases (Game.afterInit A C).transformOf (n + 5) <;> simp [scriptedMotion]
  · rw [ht 0, Game.afterInit_transformOf_zero]
    simp [scriptedMotion, Transform.MoveAbsolute, Transform.SetPosition, Transform.GetPosition,
      hoff, hz.add_zero, hz.zero_div 3 h3, hz.zero_div 5 h5, hn]

/-- C1, amended, at a concrete input: exact rational arithmetic and no key
down. -/
theorem C1_update_zero_overwrites_only_z_witness :
    ZeroLaws ratOps ∧ noKeys.asyncKeyState VK_ESCAPE = 0 ∧
    (Game.Init ratOps simpleCamera (Game.new ratOps) =
      .ok (Game.afterInit ratOps simpleCamera, [Call.IASetPrimitiveTopology]) ∧
    ∃ g' t, Game.Update ratOps simpleCamera noKeys (ratOps.lit 0) (ratOps.lit 0)
        (Game.afterInit ratOps simpleCamera) = .ok (g', []) ∧
      (∀ i, 1 ≤ i → g'.transformOf i = (Game.afterInit ratOps simpleCamera).transformOf i) ∧
      (Game.afterInit ratOps simpleCamera).transformOf 0 = some t ∧
      g'.transformOf 0 = some
        { t with position := ⟨t.position.x, t.position.y, ratOps.neg (ratOps.lit (1/100))⟩ }) :=
  ⟨ratOps_zeroLaws, rfl,
    C1_update_zero_overwrites_only_z ratOps simpleCamera ratOps_zeroLaws noKeys rfl⟩

/-- C2: after `Init` on the constructed `Game` (whose scene setup is
`CreateBasicGeometry`) there are exactly five meshes, five materials and five
entities, all pairwise distinct, and for every index `i` below five entity `i`
holds the pointer `meshes[i]` and the pointer `materials[i]`, which are a live
mesh and a live material, and holds the pointer of no other index. -/
theorem C2_entity_mesh_material_pairing {F Cam : Type} (A : FloatOps F) (C : CameraOps F Cam) :
    ∃ g calls, Game.Init A C (Game.new A) = .ok (g, calls) ∧
      g.meshes.length = 5 ∧ g.materials.length = 5 ∧ g.entities.length = 5 ∧
      g.meshes.Nodup ∧ g.materials.Nodup ∧ g.entities.Nodup ∧
      ∀ i, i < 5 → ∃ e m mat, g.entityOf i = some e ∧
        g.meshes[i]? = some m ∧ g.materials[i]? = some mat ∧
        e.mesh = m ∧ e.material = mat ∧
        (∃ f, g.heap.read m = some (.mesh f)) ∧
        (∃ x, g.heap.read mat = some (.material x)) ∧
        (∀ j, g.meshes[j]? = some e.mesh → j = i) ∧
        (∀ j, g.materials[j]? = some e.material → j = i) := by
  have nm : (Game.afterInit A C).meshes.Nodup := by
    show ([3, 4, 5, 6, 7] : List Ptr).Nodup
    decide
  have nt : (Game.afterInit A C).materials.Nodup := by
    show ([8, 9, 10, 11, 12] : List Ptr).Nodup
    decide
  have ne : (Game.afterInit A C).entities.Nodup := by
    show ([13, 14, 15, 16, 17] : List Ptr).Nodup
    decide
  have lm : (Game.afterInit A C).meshes.length = 5 := rfl
  have lt : (Game.afterInit A C).materials.length = 5 := rfl
  refine ⟨_, _, Game.Init_new A C, rfl, rfl, rfl, nm, nt, ne, ?_⟩
  have key : ∀ (l : List Ptr) (i : Nat) (hi : i < l.length), l.Nodup →
      ∀ j, l[j]? = some l[i] → j = i := by
    intro l i hi hl j hj
    have hjl : j < l.length := by
      rcases Nat.lt_or_ge j l.length with h | h
      · exact h
      · rw [List.getElem?_eq_none h] at hj
        cases hj
    exact List.getElem?_inj hjl hl (by rw [hj, List.getElem?_eq_getElem hi])
  have km := fun i hi => key (Game.afterInit A C).meshes i (by rw [lm]; exact hi) nm
  have kt := fun i hi => key (Game.afterInit A C).materials i (by rw [lt]; exact hi) nt
  intro i hi
  interval_cases i
  · exact ⟨_, _, _, rfl, rfl, rfl, rfl, rfl, ⟨_, rfl⟩, ⟨_, rfl⟩,
      km 0 (by decide), kt 0 (by decide)⟩
  · exact ⟨_, _, _, rfl, rfl, rfl, rfl, rfl, ⟨_, rfl⟩, ⟨_, rfl⟩,
      km 1 (by decide), kt 1 (by decide)⟩
  · exact ⟨_, _, _, rfl, rfl, rfl, rfl, rfl, ⟨_, rfl⟩, ⟨_, rfl⟩,
      km 2 (by decide), kt 2 (by decide)⟩
  · exact ⟨_, _, _, rfl, rfl, rfl, rfl, rfl, ⟨_, rfl⟩, ⟨_, rfl⟩,
      km 3 (by decide), kt 3 (by decide)⟩
  · exact ⟨_, _, _, rfl, rfl, rfl, rfl, rfl, ⟨_, rfl⟩, ⟨_, rfl⟩,
      km 4 (by decide), kt 4 (by decide)⟩

/-- C5: `OnResize` on a `Game` whose camera pointer is null (as it is in the
constructed `Game`, before `Init`) returns normally, leaves the state exactly as
it was and makes no call other than the base-class handler; with a live camera
it returns the same state except that the camera is the one
`UpdateProjectionMatrix` gives for the aspect value `width / height`. -/
theorem C5_onResize_without_camera_is_noop {F Cam : Type} (A : FloatOps F)
    (C : CameraOps F Cam) :
    (Game.new A : Game F Cam).playerCamera = nullptr ∧
    (∀ g : Game F Cam, g.playerCamera = nullptr →
      Game.OnResize A C g = .ok (g, [Call.DXCoreOnResize])) ∧
    (∀ (g : Game F Cam) (c : Cam), g.heap.cameraAt g.playerCamera = .ok c →
      ∃ g', Game.OnResize A C g = .ok (g', [Call.DXCoreOnResize]) ∧
        g'.cameraOf = some
          (C.UpdateProjectionMatrix (A.div (A.ofNat g.width) (A.ofNat g.height)) c) ∧
        g' = { g with heap := g'.heap } ∧
        ∀ q, q ≠ g.playerCamera → g'.heap.read q = g.heap.read q) := by
  refine ⟨rfl, ?_, ?_⟩
  · intro g hg
    simp [Game.OnResize, hg, pure, Except.pure]
  · intro g c hc
    have hne : g.playerCamera ≠ nullptr := ((Heap.cameraAt_ok_iff _ _ _).1 hc).1
    refine ⟨{ g with heap := g.heap.write g.playerCamera (.camera
      (C.UpdateProjectionMatrix (A.div (A.ofNat g.width) (A.ofNat g.height)) c)) },
      ?_, ?_, rfl, ?_⟩
    · simp [Game.OnResize, hne, hc, bind, Except.bind, pure, Except.pure]
    · exact Game.cameraOf_eq _ _ (Heap.cameraAt_write_camera _ _ _ _ hc)
    · intro q hq
      simp [Heap.read_write, hq]

/-- C5 at concrete inputs: the constructed `Game` (no camera) and the scene
`Init` sets up (camera at address 18). -/
theorem C5_onResize_without_camera_is_noop_witness :
    Game.OnResize ratOps simpleCamera (Game.new ratOps) =
      .ok (Game.new ratOps, [Call.DXCoreOnResize]) ∧
    ∃ g', Game.OnResize ratOps simpleCamera (Game.afterInit ratOps simpleCamera) =
        .ok (g', [Call.DXCoreOnResize]) ∧
      g'.cameraOf = some (simpleCamera.UpdateProjectionMatrix
        (ratOps.div (ratOps.ofNat 1280) (ratOps.ofNat 720))
        (simpleCamera.construct ⟨ratOps.lit 0, ratOps.lit 0, ratOps.neg (ratOps.lit 4)⟩
          ⟨ratOps.lit 0, ratOps.lit 0, ratOps.lit 0⟩
          (ratOps.div (ratOps.ofNat 1280) (ratOps.ofNat 720)))) := by
  refine ⟨(C5_onResize_without_camera_is_noop ratOps simpleCamera).2.1 _ rfl, ?_⟩
  obtain ⟨g', h1, h2, _⟩ := (C5_onResize_without_camera_is_noop ratOps simpleCamera).2.2
    (Game.afterInit ratOps simpleCamera) _ rfl
  exact ⟨g', h1, h2⟩

/-- C7: for every entity collection whose pointers are live, with a live pixel
shader and a live camera, `Draw` returns the state unchanged and its calls are,
in order: clear of the render target, clear of the depth buffer, the three
light descriptors, the camera position, one commit of the constant data, one
`Entity::Draw` per element of the collection in collection order, one present
and, last, the re-bind of the render target. -/
theorem C7_draw_command_trace {F Cam : Type} (A : FloatOps F) (C : CameraOps F Cam)
    (deltaTime totalTime : F) (g : Game F Cam) (f : String) (c : Cam)
    (hs : g.heap.pixelShaderAt g.pixelShader = .ok f)
    (hc : g.heap.cameraAt g.playerCamera = .ok c)
    (hl : ∀ p ∈ g.entities, ∃ e, g.heap.entityAt p = .ok e) :
    ∃ calls, Game.Draw A C deltaTime totalTime g = .ok (g, calls) ∧
      calls =
        [Call.ClearRenderTargetView ⟨A.lit (4/10), A.lit (6/10), A.lit (75/100), A.lit 0⟩,
         Call.ClearDepthStencilView,
         Call.SetData "dirLight" g.dirLight,
         Call.SetData "pointLight" g.pointLight,
         Call.SetData "dirLight3" g.dirLight3,
         Call.SetFloat3 "cameraPosition" (C.GetPosition c),
         Call.CopyAllBufferData]
        ++ g.entities.map (fun p => Call.EntityDraw p g.playerCamera)
        ++ [Call.Present, Call.OMSetRenderTargets] ∧
      calls.length = g.entities.length + 9 ∧
      (∀ k p, g.entities[k]? = some p →
        calls[7 + k]? = some (Call.EntityDraw p g.playerCamera)) ∧
      calls[7 + g.entities.length]? = some Call.Present ∧
      calls[8 + g.entities.length]? = some Call.OMSetRenderTargets := by
  refine ⟨_, Game.Draw_eq A C deltaTime totalTime g f c hs hc hl, rfl, ?_, ?_, ?_, ?_⟩
  · simp [drawPrologue]
  · intro k p hk
    have hlt : k < g.entities.length := by
      rcases Nat.lt_or_ge k g.entities.length with h | h
      · exact h
      · rw [List.getElem?_eq_none h] at hk
        cases hk
    rw [List.append_assoc, List.getElem?_append_right (by simp [drawPrologue])]
    simp only [drawPrologue, List.length_cons, List.length_nil]
    rw [show 7 + k - (0 + 1 + 1 + 1 + 1 + 1 + 1 + 1) = k by omega]
    rw [List.getElem?_append_left (by simpa using hlt)]
    simp [hk]
  · rw [List.getElem?_append_right (by simp [drawPrologue]; omega)]
    simp [drawPrologue]
    rw [show 7 + g.entities.length - (g.entities.length + 7) = 0 by omega]
    rfl
  · rw [List.getElem?_append_right (by simp [drawPrologue]; omega)]
    simp [drawPrologue]
    rw [show 8 + g.entities.length - (g.entities.length + 7) = 1 by omega]
    rfl

/-- C7 at a concrete input: the scene `Init` sets up, whose five entities are
at addresses 13 to 17 and whose camera is at address 18. -/
theorem C7_draw_command_trace_witness :
    ∃ calls, Game.Draw ratOps simpleCamera 0 0 (Game.afterInit ratOps simpleCamera) =
        .ok (Game.afterInit ratOps simpleCamera, calls) ∧
      calls.length = 14 ∧
      calls[7]? = some (Call.EntityDraw 13 18) ∧
      calls[11]? = some (Call.EntityDraw 17 18) ∧
      calls[12]? = some Call.Present ∧
      calls[13]? = some Call.OMSetRenderTargets := by
  obtain ⟨calls, h1, _, h3, h4, h5, h6⟩ := C7_draw_command_trace ratOps simpleCamera 0 0
    (Game.afterInit ratOps simpleCamera) _ _ rfl rfl (Game.afterInit_ready _ _).live
  exact ⟨calls, h1, h3, h4 0 13 rfl, h4 4 17 rfl, h5, h6⟩

/-- C9: on a scene that has been set up, for every frame time, total time and
prior position (x, y, z) of entity 0, `Update` returns normally and leaves
entity 0 at (x + (-offset)/3, y + offset/5, -0.01) with
offset = sin(totalTime) * deltaTime, its rotation and scale as they were: the
move is applied to x and y and z is overwritten with the constant, whatever it
was. In exact rational arithmetic the position reads
(x - offset/3, y + offset/5, -1/100). -/
theorem C9_entity0_z_overwritten :
    (∀ {F Cam : Type} (A : FloatOps F) (C : CameraOps F Cam) (input : InputState)
      (deltaTime totalTime : F) (g : Game F Cam) (t : Transform F),
      g.Ready → g.transformOf 0 = some t →
      ∃ g' calls t', Game.Update A C input deltaTime totalTime g = .ok (g', calls) ∧
        g'.transformOf 0 = some t' ∧
        t'.position =
          ⟨A.add t.position.x (A.div (A.neg (A.mul (A.sin totalTime) deltaTime)) (A.lit 3)),
           A.add t.position.y (A.div (A.mul (A.sin totalTime) deltaTime) (A.lit 5)),
           A.neg (A.lit (1/100))⟩ ∧
        t'.rotation = t.rotation ∧ t'.scale = t.scale) ∧
    (∀ {Cam : Type} (C : CameraOps ℚ Cam) (input : InputState) (deltaTime totalTime : ℚ)
      (g : Game ℚ Cam) (t : Transform ℚ),
      g.Ready → g.transformOf 0 = some t →
      ∃ g' calls t', Game.Update ratOps C input deltaTime totalTime g = .ok (g', calls) ∧
        g'.transformOf 0 = some t' ∧
        t'.position =
          ⟨t.position.x - ratOps.sin totalTime * deltaTime / 3,
           t.position.y + ratOps.sin totalTime * deltaTime / 5,
           -1/100⟩) := by
  constructor
  · intro F Cam A C input deltaTime totalTime g t hg ht
    obtain ⟨g', c, _, hu, _, _, hm, _⟩ := Game.Update_ready A C input deltaTime totalTime g hg
    refine ⟨g', _, scriptedMotion A deltaTime totalTime 0 t, hu, ?_, rfl, rfl, rfl⟩
    rw [hm 0, ht]
    rfl
  · intro Cam C input deltaTime totalTime g t hg ht
    obtain ⟨g', c, _, hu, _, _, hm, _⟩ :=
      Game.Update_ready ratOps C input deltaTime totalTime g hg
    refine ⟨g', _, scriptedMotion ratOps deltaTime totalTime 0 t, hu, ?_, ?_⟩
    · rw [hm 0, ht]
      rfl
    · simp only [scriptedMotion, Transform.SetPosition, Transform.MoveAbsolute,
        Transform.GetPosition, ratOps, Vec3.mk.injEq]
      refine ⟨?_, ?_, ?_⟩
      · rw [neg_div, ← sub_eq_add_neg]
      · trivial
      · norm_num

/-- C9 at a concrete input: the scene `Init` sets up, whose entity 0 is at
(3, 0, 1), with frame time 1/2 and total time 0. -/
theorem C9_entity0_z_overwritten_witness :
    ∃ g' calls t', Game.Update ratOps simpleCamera noKeys (1/2) 0
        (Game.afterInit ratOps simpleCamera) = .ok (g', calls) ∧
      g'.transformOf 0 = some t' ∧
      t'.position = ⟨3 - ratOps.sin 0 * (1/2) / 3, 0 + ratOps.sin 0 * (1/2) / 5, -1/100⟩ :=
  C9_entity0_z_overwritten.2 simpleCamera noKeys (1/2) 0 (Game.afterInit ratOps simpleCamera)
    ⟨⟨3, 0, 1⟩, ⟨0, 0, 0⟩, ⟨1, 1, 1⟩⟩ (Game.afterInit_ready _ _)
    (by rw [Game.afterInit_transformOf_zero]; simp [ratOps])

/-- C6, as the code has it refuted: on the scene `Init` sets up, with the escape
key down, `Update` with frame time 1 requests quit and all the same moves
entity 0 (from z = 1 to z = -1/100) and calls `Camera::Update` (the recording
camera goes from 0 to 1 calls received). -/
theorem C6_quit_does_not_stop_motion :
    Game.Init ratOps simpleCamera (Game.new ratOps) =
      .ok (Game.afterInit ratOps simpleCamera, [Call.IASetPrimitiveTopology]) ∧
    escapeDown.asyncKeyState VK_ESCAPE ≠ 0 ∧
    ∃ g', Game.Update ratOps simpleCamera escapeDown 1 0 (Game.afterInit ratOps simpleCamera) =
        .ok (g', [Call.Quit]) ∧
      (Game.afterInit ratOps simpleCamera).transformOf 0 =
        some ⟨⟨3, 0, 1⟩, ⟨0, 0, 0⟩, ⟨1, 1, 1⟩⟩ ∧
      g'.transformOf 0 = some ⟨⟨3, 0, -1/100⟩, ⟨0, 0, 0⟩, ⟨1, 1, 1⟩⟩ ∧
      (Game.afterInit ratOps simpleCamera).cameraOf =
        some ⟨⟨0, 0, -4⟩, ⟨0, 0, 0⟩, 1280 / 720, 0⟩ ∧
      g'.cameraOf = some ⟨⟨0, 0, -4⟩, ⟨0, 0, 0⟩, 1280 / 720, 1⟩ := by
  refine ⟨Game.Init_new _ _, by decide, ?_⟩
  obtain ⟨g', c, hc, hu, _, _, ht, hc'⟩ := Game.Update_ready ratOps simpleCamera escapeDown 1 0
    (Game.afterInit ratOps simpleCamera) (Game.afterInit_ready _ _)
  have h0 : (Game.afterInit ratOps simpleCamera).transformOf 0 =
      some ⟨⟨3, 0, 1⟩, ⟨0, 0, 0⟩, ⟨1, 1, 1⟩⟩ := by
    rw [Game.afterInit_transformOf_zero]
    simp [ratOps]
  have h1 : g'.transformOf 0 = some ⟨⟨3, 0, -1/100⟩, ⟨0, 0, 0⟩, ⟨1, 1, 1⟩⟩ := by
    rw [ht 0, h0]
    simp [scriptedMotion, Transform.MoveAbsolute, Transform.SetPosition, Transform.GetPosition,
      ratOps]
    norm_num
  have hc0 : (Game.afterInit ratOps simpleCamera).heap.cameraAt
      (Game.afterInit ratOps simpleCamera).playerCamera =
      .ok ⟨⟨0, 0, -4⟩, ⟨0, 0, 0⟩, 1280 / 720, 0⟩ := by
    rw [Heap.cameraAt_ok_iff]
    refine ⟨by decide, ?_⟩
    simp [Game.afterInit, Heap.read, List.lookup, ratOps, simpleCamera]
  have hcc : c = ⟨⟨0, 0, -4⟩, ⟨0, 0, 0⟩, 1280 / 720, 0⟩ := by
    rw [hc0] at hc
    cases hc
    rfl
  refine ⟨g', ?_, h0, h1, Game.cameraOf_eq _ _ hc0, ?_⟩
  · have he : escapeDown.asyncKeyState VK_ESCAPE ≠ 0 := by decide
    rw [if_pos he] at hu
    exact hu
  · rw [Game.cameraOf_eq _ _ hc', hcc]
    simp [simpleCamera]

/-- C6, amended: whenever `Update` returns, it has requested quit if and only
if the escape key was observed; on a scene that has been set up it returns,
applies the scripted motion to every entity transform and advances the camera
from the input whether or not the escape key was observed; on an empty entity
collection it returns the state unchanged. -/
theorem C6_quit_iff_escape_motion_regardless {F Cam : Type} (A : FloatOps F)
    (C : CameraOps F Cam) (input : InputState) (deltaTime totalTime : F) (g : Game F Cam) :
    (∀ g' calls, Game.Update A C input deltaTime totalTime g = .ok (g', calls) →
      (Call.Quit ∈ calls ↔ input.asyncKeyState VK_ESCAPE ≠ 0)) ∧
    (g.Ready → ∃ g' calls c, g.cameraOf = some c ∧
      Game.Update A C input deltaTime totalTime g = .ok (g', calls) ∧
      (Call.Quit ∈ calls ↔ input.asyncKeyState VK_ESCAPE ≠ 0) ∧
      (∀ j, g'.transformOf j = (g.transformOf j).map (scriptedMotion A deltaTime totalTime j)) ∧
      g'.cameraOf = some (C.Update deltaTime input c)) ∧
    (g.entities = [] → ∃ calls, Game.Update A C input deltaTime totalTime g = .ok (g, calls) ∧
      (Call.Quit ∈ calls ↔ input.asyncKeyState VK_ESCAPE ≠ 0)) := by
  have hq : (Call.Quit ∈ (if input.asyncKeyState VK_ESCAPE ≠ 0 then [Call.Quit] else []
      : List (Call F))) ↔ input.asyncKeyState VK_ESCAPE ≠ 0 := by
    by_cases he : input.asyncKeyState VK_ESCAPE = 0 <;> simp [he]
  refine ⟨?_, ?_, ?_⟩
  · intro g' calls h
    rw [Game.Update_calls A C input deltaTime totalTime g g' calls h]
    exact hq
  · intro hg
    obtain ⟨g', c, hc, hu, _, _, ht, hc'⟩ :=
      Game.Update_ready A C input deltaTime totalTime g hg
    exact ⟨g', _, c, Game.cameraOf_eq _ _ hc, hu, hq, ht, Game.cameraOf_eq _ _ hc'⟩
  · intro he
    exact ⟨_, Game.Update_empty A C input deltaTime totalTime g he, hq⟩

/-- C6, amended, at concrete inputs: the scene `Init` sets up with the escape
key down, and the constructed `Game` (empty collection) with no key down. -/
theorem C6_quit_iff_escape_motion_regardless_witness :
    (∃ g' calls c, (Game.afterInit ratOps simpleCamera).cameraOf = some c ∧
      Game.Update ratOps simpleCamera escapeDown 1 0 (Game.afterInit ratOps simpleCamera) =
        .ok (g', calls) ∧
      (Call.Quit ∈ calls ↔ escapeDown.asyncKeyState VK_ESCAPE ≠ 0) ∧
      (∀ j, g'.transformOf j =
        ((Game.afterInit ratOps simpleCamera).transformOf j).map (scriptedMotion ratOps 1 0 j)) ∧
      g'.cameraOf = some (simpleCamera.Update 1 escapeDown c)) ∧
    (∃ calls, Game.Update ratOps simpleCamera noKeys 1 0 (Game.new ratOps) =
        .ok (Game.new ratOps, calls) ∧
      (Call.Quit ∈ calls ↔ noKeys.asyncKeyState VK_ESCAPE ≠ 0)) :=
  ⟨(C6_quit_iff_escape_motion_regardless ratOps simpleCamera escapeDown 1 0
      (Game.afterInit ratOps simpleCamera)).2.1 (Game.afterInit_ready _ _),
   (C6_quit_iff_escape_motion_regardless ratOps simpleCamera noKeys 1 0
      (Game.new ratOps)).2.2 rfl⟩

/-- C8: in every state reachable after `Init`, for every input and every
(deltaTime, totalTime), `Update` and `Draw` return, and the state they leave
has the same mesh, material and entity collections (same pointers, same order,
hence same length), every entity holding the same mesh and material pointers
as before and every mesh, material and shader object untouched; what may differ
is confined to entity transforms and the camera. -/
theorem C8_frame_loop_keeps_collections {F Cam : Type} (A : FloatOps F) (C : CameraOps F Cam)
    (g : Game F Cam) (hr : Game.Reachable A C g) (input : InputState)
    (deltaTime totalTime : F) :
    (∃ g' calls, Game.Update A C input deltaTime totalTime g = .ok (g', calls) ∧
      g.CollectionsKept g' ∧ g.SameScene g') ∧
    (∃ g' calls, Game.Draw A C deltaTime totalTime g = .ok (g', calls) ∧
      g.CollectionsKept g' ∧ g.SameScene g') := by
  have hg := hr.ready.1
  constructor
  · obtain ⟨g', c, _, hu, _, hs, _, _⟩ := Game.Update_ready A C input deltaTime totalTime g hg
    exact ⟨g', _, hu, hs.kept, hs⟩
  · obtain ⟨f, hf⟩ := hr.ready.2.2
    obtain ⟨c, hc⟩ := hg.camera
    exact ⟨g, _, Game.Draw_eq A C deltaTime totalTime g f c hf hc hg.live,
      (Game.sameScene_refl g).kept, Game.sameScene_refl g⟩

/-- C8 at a concrete input: the scene `Init` sets up, the escape key up, frame
time 1/2 and total time 0. -/
theorem C8_frame_loop_keeps_collections_witness :
    Game.Reachable ratOps simpleCamera (Game.afterInit ratOps simpleCamera) ∧
    (∃ g' calls, Game.Update ratOps simpleCamera noKeys (1/2) 0
        (Game.afterInit ratOps simpleCamera) = .ok (g', calls) ∧
      (Game.afterInit ratOps simpleCamera).CollectionsKept g' ∧
      (Game.afterInit ratOps simpleCamera).SameScene g') ∧
    (∃ g' calls, Game.Draw ratOps simpleCamera (1/2) 0
        (Game.afterInit ratOps simpleCamera) = .ok (g', calls) ∧
      (Game.afterInit ratOps simpleCamera).CollectionsKept g' ∧
      (Game.afterInit ratOps simpleCamera).SameScene g') :=
  ⟨Game.Reachable.init _ _ (Game.Init_new _ _),
    C8_frame_loop_keeps_collections ratOps simpleCamera _
      (Game.Reachable.init _ _ (Game.Init_new _ _)) noKeys (1/2) 0⟩

/-- C10: `CreateBasicGeometry`, run as `Init` runs it, leaves an entity
collection of length 5, on which `BeginPlay` returns without a fault, and so
does `Init`; in every state reachable after `Init` the collection has length 5,
each of the subscripts 0 to 4 is in bounds and yields a live entity, the camera
exists, and `Update` returns without a fault; and when the entity collection is
empty `Update` and `BeginPlay` return the state unchanged, whatever the camera
pointer is. -/
theorem C10_entity_indices_in_bounds {F Cam : Type} (A : FloatOps F) (C : CameraOps F Cam) :
    (∃ g1, (Game.new A : Game F Cam).LoadShaders.CreateBasicGeometry A = .ok g1 ∧
      g1.entities.length = 5 ∧ ∃ g2, g1.BeginPlay A = .ok g2) ∧
    (∃ g calls, Game.Init A C (Game.new A) = .ok (g, calls) ∧ g.entities.length = 5) ∧
    (∀ g, Game.Reachable A C g →
      g.entities.length = 5 ∧
      (∀ i, i < 5 → ∃ p e, subscript g.entities i = .ok p ∧ g.heap.entityAt p = .ok e) ∧
      (∃ c, g.heap.cameraAt g.playerCamera = .ok c) ∧
      ∀ input deltaTime totalTime, ∃ g' calls,
        Game.Update A C input deltaTime totalTime g = .ok (g', calls)) ∧
    (∀ g : Game F Cam, g.entities = [] →
      g.BeginPlay A = .ok g ∧
      ∀ input deltaTime totalTime, ∃ calls,
        Game.Update A C input deltaTime totalTime g = .ok (g, calls)) := by
  refine ⟨?_, ⟨_, _, Game.Init_new A C, rfl⟩, ?_, ?_⟩
  · simp [Game.LoadShaders, Game.CreateBasicGeometry, Game.pushMesh, Game.pushMaterial,
      Game.pushEntity, Game.BeginPlay, Game.onTransform, subscript, Heap.alloc, Heap.write,
      Heap.entityAt, Heap.read, Game.new, Game.uninitialized, Heap.empty, bind, Except.bind,
      pure, Except.pure, Entity.new, nullptr, List.lookup]
  · intro g hr
    obtain ⟨hg, h5, _⟩ := hr.ready
    refine ⟨h5, ?_, hg.camera, ?_⟩
    · intro i hi
      have hlt : i < g.entities.length := by omega
      obtain ⟨e, he⟩ := hg.live _ (List.getElem_mem hlt)
      exact ⟨g.entities[i], e,
        (subscript_ok_iff _ _ _).2 (List.getElem?_eq_getElem hlt), he⟩
    · intro input deltaTime totalTime
      obtain ⟨g', c, _, hu, _⟩ := Game.Update_ready A C input deltaTime totalTime g hg
      exact ⟨g', _, hu⟩
  · intro g he
    exact ⟨Game.BeginPlay_empty A g he, fun input deltaTime totalTime =>
      ⟨_, Game.Update_empty A C input deltaTime totalTime g he⟩⟩

/-- C10 at concrete inputs: the scene `Init` sets up and the constructed `Game`
(empty collection, null camera). -/
theorem C10_entity_indices_in_bounds_witness :
    ((Game.afterInit ratOps simpleCamera).entities.length = 5 ∧
      (∀ i, i < 5 → ∃ p e,
        subscript (Game.afterInit ratOps simpleCamera).entities i = .ok p ∧
        (Game.afterInit ratOps simpleCamera).heap.entityAt p = .ok e) ∧
      (∃ c, (Game.afterInit ratOps simpleCamera).heap.cameraAt
        (Game.afterInit ratOps simpleCamera).playerCamera = .ok c) ∧
      ∀ input deltaTime totalTime, ∃ g' calls,
        Game.Update ratOps simpleCamera input deltaTime totalTime
          (Game.afterInit ratOps simpleCamera) = .ok (g', calls)) ∧
    ((Game.new ratOps : Game ℚ SimpleCamera).BeginPlay ratOps = .ok (Game.new ratOps) ∧
      ∀ input deltaTime totalTime, ∃ calls,
        Game.Update ratOps simpleCamera input deltaTime totalTime (Game.new ratOps) =
          .ok (Game.new ratOps, calls)) :=
  ⟨(C10_entity_indices_in_bounds ratOps simpleCamera).2.2.1 _
      (Game.Reachable.init _ _ (Game.Init_new _ _)),
   (C10_entity_indices_in_bounds ratOps simpleCamera).2.2.2 _ rfl⟩

/-- C3: for collections of any size whose elements are distinct live objects,
and under any schedule of the three `parallel_for` loops, the destructor returns
without a fault; every entity, material and mesh is released; every entity
release comes before every material release, every material release before
every mesh release, and the camera and the two shaders are released after every
release of the three collections. The camera, the pixel shader and the vertex
shader are each released when their pointer is not null, in that order; the
trace is exactly the three phases followed by these releases, and every address
in it is gone from the free store at the end. -/
theorem C3_teardown_order {F Cam : Type} (g : Game F Cam) (hg : g.Owned)
    (se sm sg : List Nat) (he : se.Perm (List.range g.entities.length))
    (hm : sm.Perm (List.range g.materials.length))
    (hgm : sg.Perm (List.range g.meshes.length)) :
    ∃ h' t, g.destructor se sm sg = .ok (h', t) ∧
      (∀ p ∈ g.entities, ⟨.entities, p⟩ ∈ t) ∧
      (∀ p ∈ g.materials, ⟨.materials, p⟩ ∈ t) ∧
      (∀ p ∈ g.meshes, ⟨.meshes, p⟩ ∈ t) ∧
      Precedes (fun r => r.owner = .entities) (fun r => r.owner = .materials) t ∧
      Precedes (fun r => r.owner = .entities) (fun r => r.owner = .meshes) t ∧
      Precedes (fun r => r.owner = .materials) (fun r => r.owner = .meshes) t ∧
      Precedes (fun r => r.owner = .entities ∨ r.owner = .materials ∨ r.owner = .meshes)
        (fun r => r.owner = .playerCamera ∨ r.owner = .pixelShader ∨ r.owner = .vertexShader)
        t ∧
      (g.playerCamera ≠ nullptr → ⟨.playerCamera, g.playerCamera⟩ ∈ t) ∧
      (g.pixelShader ≠ nullptr → ⟨.pixelShader, g.pixelShader⟩ ∈ t) ∧
      (g.vertexShader ≠ nullptr → ⟨.vertexShader, g.vertexShader⟩ ∈ t) ∧
      Precedes (fun r => r.owner = .playerCamera) (fun r => r.owner = .pixelShader) t ∧
      Precedes (fun r => r.owner = .pixelShader) (fun r => r.owner = .vertexShader) t ∧
      t = phaseTrace .entities g.entities se ++ phaseTrace .materials g.materials sm ++
        phaseTrace .meshes g.meshes sg ++ releaseOf .playerCamera g.playerCamera ++
        releaseOf .pixelShader g.pixelShader ++ releaseOf .vertexShader g.vertexShader ∧
      (∀ r ∈ t, h'.read r.addr = none) := by
  have bse : ∀ i ∈ se, i < g.entities.length := fun i hi => List.mem_range.1 (he.mem_iff.1 hi)
  have bsm : ∀ i ∈ sm, i < g.materials.length := fun i hi => List.mem_range.1 (hm.mem_iff.1 hi)
  have bsg : ∀ i ∈ sg, i < g.meshes.length := fun i hi => List.mem_range.1 (hgm.mem_iff.1 hi)
  obtain ⟨h1, h', _, _, hd, hfree⟩ := g.destructor_eq hg se sm sg he hm hgm
  have mE : ∀ r ∈ phaseTrace .entities g.entities se, r.owner = .entities :=
    fun r hr => (phaseTrace_mem bse hr).1
  have mM : ∀ r ∈ phaseTrace .materials g.materials sm, r.owner = .materials :=
    fun r hr => (phaseTrace_mem bsm hr).1
  have mG : ∀ r ∈ phaseTrace .meshes g.meshes sg, r.owner = .meshes :=
    fun r hr => (phaseTrace_mem bsg hr).1
  have mC : ∀ r ∈ releaseOf .playerCamera g.playerCamera, r.owner = .playerCamera :=
    fun r hr => (releaseOf_mem hr).1
  have mP : ∀ r ∈ releaseOf .pixelShader g.pixelShader, r.owner = .pixelShader :=
    fun r hr => (releaseOf_mem hr).1
  have mV : ∀ r ∈ releaseOf .vertexShader g.vertexShader, r.owner = .vertexShader :=
    fun r hr => (releaseOf_mem hr).1
  refine ⟨h', _, hd, ?_, ?_, ?_, ?_, ?_, ?_, ?_, ?_, ?_, ?_, ?_, ?_, rfl, ?_⟩
  · intro p hp
    have := (phaseTrace_perm .entities g.entities se he).mem_iff.2 (List.mem_map.2 ⟨p, hp, rfl⟩)
    simp only [Game.teardownTrace, List.mem_append]
    tauto
  · intro p hp
    have := (phaseTrace_perm .materials g.materials sm hm).mem_iff.2
      (List.mem_map.2 ⟨p, hp, rfl⟩)
    simp only [Game.teardownTrace, List.mem_append]
    tauto
  · intro p hp
    have := (phaseTrace_perm .meshes g.meshes sg hgm).mem_iff.2 (List.mem_map.2 ⟨p, hp, rfl⟩)
    simp only [Game.teardownTrace, List.mem_append]
    tauto
  · simp only [Game.teardownTrace, List.append_assoc]
    apply Precedes.of_append
    · intro r hr
      rw [mE r hr]
      decide
    · intro r hr
      simp only [List.mem_append] at hr
      rcases hr with hr | hr | hr | hr | hr
      · rw [mM r hr]; decide
      · rw [mG r hr]; decide
      · rw [mC r hr]; decide
      · rw [mP r hr]; decide
      · rw [mV r hr]; decide
  · simp only [Game.teardownTrace, List.append_assoc]
    apply Precedes.of_append
    · intro r hr
      rw [mE r hr]
      decide
    · intro r hr
      simp only [List.mem_append] at hr
      rcases hr with hr | hr | hr | hr | hr
      · rw [mM r hr]; decide
      · rw [mG r hr]; decide
      · rw [mC r hr]; decide
      · rw [mP r hr]; decide
      · rw [mV r hr]; decide
  · simp only [Game.teardownTrace]
    rw [List.append_assoc _ (releaseOf Owner.pixelShader _), List.append_assoc _
      (releaseOf Owner.playerCamera _), List.append_assoc _ (phaseTrace Owner.meshes _ _)]
    apply Precedes.of_append
    · intro r hr
      simp only [List.mem_append] at hr
      rcases hr with hr | hr
      · rw [mE r hr]; decide
      · rw [mM r hr]; decide
    · intro r hr
      simp only [List.mem_append] at hr
      rcases hr with hr | hr | hr | hr
      · rw [mG r hr]; decide
      · rw [mC r hr]; decide
      · rw [mP r hr]; decide
      · rw [mV r hr]; decide
  · simp only [Game.teardownTrace]
    rw [List.append_assoc _ (releaseOf Owner.pixelShader _), List.append_assoc _
      (releaseOf Owner.playerCamera _)]
    apply Precedes.of_append
    · intro r hr
      simp only [List.mem_append] at hr
      rcases hr with (hr | hr) | hr
      · rw [mE r hr]; decide
      · rw [mM r hr]; decide
      · rw [mG r hr]; decide
    · intro r hr
      simp only [List.mem_append] at hr
      rcases hr with hr | hr | hr
      · rw [mC r hr]; decide
      · rw [mP r hr]; decide
      · rw [mV r hr]; decide
  · intro hp
    simp only [Game.teardownTrace, List.mem_append, releaseOf, if_neg hp, List.mem_singleton]
    tauto
  · intro hp
    simp only [Game.teardownTrace, List.mem_append, releaseOf, if_neg hp, List.mem_singleton]
    tauto
  · intro hp
    simp only [Game.teardownTrace, List.mem_append, releaseOf, if_neg hp, List.mem_singleton]
    tauto
  · simp only [Game.teardownTrace]
    rw [List.append_assoc _ (releaseOf Owner.pixelShader _)]
    apply Precedes.of_append
    · intro r hr
      simp only [List.mem_append] at hr
      rcases hr with ((hr | hr) | hr) | hr
      · rw [mE r hr]; decide
      · rw [mM r hr]; decide
      · rw [mG r hr]; decide
      · rw [mC r hr]; decide
    · intro r hr
      simp only [List.mem_append] at hr
      rcases hr with hr | hr
      · rw [mP r hr]; decide
      · rw [mV r hr]; decide
  · simp only [Game.teardownTrace]
    apply Precedes.of_append
    · intro r hr
      simp only [List.mem_append] at hr
      rcases hr with (((hr | hr) | hr) | hr) | hr
      · rw [mE r hr]; decide
      · rw [mM r hr]; decide
      · rw [mG r hr]; decide
      · rw [mC r hr]; decide
      · rw [mP r hr]; decide
    · intro r hr
      rw [mV r hr]; decide
  · intro r hr
    rw [hfree r.addr, if_pos (List.mem_map.2 ⟨r, hr, rfl⟩)]

/-- C3 at a concrete input: the scene `Init` sets up, torn down under three
different interleavings of the index range 0 to 4; the camera (address 18), the
pixel shader (address 2) and the vertex shader (address 1) are the last three
releases. -/
theorem C3_teardown_order_witness :
    ∃ h' t, (Game.afterInit ratOps simpleCamera).destructor [4, 2, 0, 1, 3] [0, 1, 2, 3, 4]
        [1, 0, 3, 2, 4] = .ok (h', t) ∧
      (∀ p ∈ (Game.afterInit ratOps simpleCamera).entities, ⟨.entities, p⟩ ∈ t) ∧
      (∀ p ∈ (Game.afterInit ratOps simpleCamera).materials, ⟨.materials, p⟩ ∈ t) ∧
      (∀ p ∈ (Game.afterInit ratOps simpleCamera).meshes, ⟨.meshes, p⟩ ∈ t) ∧
      Precedes (fun r => r.owner = .entities) (fun r => r.owner = .materials) t ∧
      Precedes (fun r => r.owner = .entities) (fun r => r.owner = .meshes) t ∧
      Precedes (fun r => r.owner = .materials) (fun r => r.owner = .meshes) t ∧
      Precedes (fun r => r.owner = .entities ∨ r.owner = .materials ∨ r.owner = .meshes)
        (fun r => r.owner = .playerCamera ∨ r.owner = .pixelShader ∨ r.owner = .vertexShader)
        t ∧
      ⟨.playerCamera, 18⟩ ∈ t ∧ ⟨.pixelShader, 2⟩ ∈ t ∧ ⟨.vertexShader, 1⟩ ∈ t ∧
      Precedes (fun r => r.owner = .playerCamera) (fun r => r.owner = .pixelShader) t ∧
      Precedes (fun r => r.owner = .pixelShader) (fun r => r.owner = .vertexShader) t ∧
      t = [⟨.entities, 17⟩, ⟨.entities, 15⟩, ⟨.entities, 13⟩, ⟨.entities, 14⟩, ⟨.entities, 16⟩,
        ⟨.materials, 8⟩, ⟨.materials, 9⟩, ⟨.materials, 10⟩, ⟨.materials, 11⟩, ⟨.materials, 12⟩,
        ⟨.meshes, 4⟩, ⟨.meshes, 3⟩, ⟨.meshes, 6⟩, ⟨.meshes, 5⟩, ⟨.meshes, 7⟩,
        ⟨.playerCamera, 18⟩, ⟨.pixelShader, 2⟩, ⟨.vertexShader, 1⟩] ∧
      (∀ r ∈ t, h'.read r.addr = none) := by
  obtain ⟨h', t, hd, a1, a2, a3, a4, a5, a6, a7, c1, c2, c3, a8, a9, ht, hn⟩ :=
    C3_teardown_order (Game.afterInit ratOps simpleCamera) (Game.afterInit_owned _ _)
      [4, 2, 0, 1, 3] [0, 1, 2, 3, 4] [1, 0, 3, 2, 4]
      (show List.Perm [4, 2, 0, 1, 3] (List.range 5) by decide)
      (show List.Perm [0, 1, 2, 3, 4] (List.range 5) by decide)
      (show List.Perm [1, 0, 3, 2, 4] (List.range 5) by decide)
  exact ⟨h', t, hd, a1, a2, a3, a4, a5, a6, a7,
    c1 (show (18 : Ptr) ≠ 0 by decide), c2 (show (2 : Ptr) ≠ 0 by decide),
    c3 (show (1 : Ptr) ≠ 0 by decide), a8, a9, ht.trans (by decide), hn⟩

/-- C4: constructing an `Entity` from a mesh and a material pointer (the
statement `entities.push_back(new Entity(...))`) leaves the mesh and material
collections and every object already in the free store as they were; and in the
teardown of collections of distinct live objects, under any schedule, the
entity phase releases entities only and leaves every mesh and every material
exactly as it was, and in the whole teardown every mesh and every material is
released exactly once, by the `delete` of its own collection and by no other. -/
theorem C4_entity_lifetime_leaves_mesh_and_material :
    (∀ {F Cam : Type} (A : FloatOps F) (g g' : Game F Cam) (i j : Nat),
      g.pushEntity A i j = .ok g' →
      g'.meshes = g.meshes ∧ g'.materials = g.materials ∧
        ∀ p o, g.heap.read p = some o → g'.heap.read p = some o) ∧
    (∀ {F Cam : Type} (g : Game F Cam) (se sm sg : List Nat), g.Owned →
      se.Perm (List.range g.entities.length) →
      sm.Perm (List.range g.materials.length) →
      sg.Perm (List.range g.meshes.length) →
      ∃ h1 t1 h' t, deleteAll .entities g.entities se g.heap = .ok (h1, t1) ∧
        (∀ r ∈ t1, r.owner = .entities ∧ r.addr ∈ g.entities) ∧
        (∀ p ∈ g.meshes, h1.read p = g.heap.read p ∧ ∃ f, h1.read p = some (.mesh f)) ∧
        (∀ p ∈ g.materials,
          h1.read p = g.heap.read p ∧ ∃ m, h1.read p = some (.material m)) ∧
        g.destructor se sm sg = .ok (h', t) ∧
        (∀ p ∈ g.meshes,
          t.count ⟨.meshes, p⟩ = 1 ∧ ∀ r ∈ t, r.addr = p → r.owner = .meshes) ∧
        (∀ p ∈ g.materials, t.count ⟨.materials, p⟩ = 1 ∧
          ∀ r ∈ t, r.addr = p → r.owner = .materials)) := by
  refine ⟨fun A g g' i j h => Game.pushEntity_frame A g g' i j h, ?_⟩
  intro F Cam g se sm sg hg he hm hgm
  have bse : ∀ i ∈ se, i < g.entities.length := fun i hi => List.mem_range.1 (he.mem_iff.1 hi)
  have bsm : ∀ i ∈ sm, i < g.materials.length := fun i hi => List.mem_range.1 (hm.mem_iff.1 hi)
  have bsg : ∀ i ∈ sg, i < g.meshes.length := fun i hi => List.mem_range.1 (hgm.mem_iff.1 hi)
  obtain ⟨h1, h', e1, f1, hd, _⟩ := g.destructor_eq hg se sm sg he hm hgm
  have o1 : g.heap.OwnedBy (se.map (fun i => g.entities.getD i nullptr)) [Owner.entities] :=
    Heap.OwnedBy.phase g.heap Owner.entities g.entities se bse (fun p hp => by
      obtain ⟨e, h⟩ := (hg.entities_live p hp).2
      exact ⟨_, h, rfl⟩)
  have typed := g.teardownTrace_typed hg se sm sg bse bsm bsg
  have mE : ∀ r ∈ phaseTrace .entities g.entities se, r.owner = .entities :=
    fun r hr => (phaseTrace_mem bse hr).1
  have mM : ∀ r ∈ phaseTrace .materials g.materials sm, r.owner = .materials :=
    fun r hr => (phaseTrace_mem bsm hr).1
  have mG : ∀ r ∈ phaseTrace .meshes g.meshes sg, r.owner = .meshes :=
    fun r hr => (phaseTrace_mem bsg hr).1
  have mC : ∀ r ∈ releaseOf .playerCamera g.playerCamera, r.owner = .playerCamera :=
    fun r hr => (releaseOf_mem hr).1
  have mP : ∀ r ∈ releaseOf .pixelShader g.pixelShader, r.owner = .pixelShader :=
    fun r hr => (releaseOf_mem hr).1
  have mV : ∀ r ∈ releaseOf .vertexShader g.vertexShader, r.owner = .vertexShader :=
    fun r hr => (releaseOf_mem hr).1
  refine ⟨h1, _, h', _, e1, fun r hr => phaseTrace_mem bse hr, ?_, ?_, hd, ?_, ?_⟩
  · intro p hp
    obtain ⟨f, hf⟩ := (hg.meshes_live p hp).2
    have hk : h1.read p = g.heap.read p := by
      rw [f1 p, if_neg (o1.not_mem p _ Owner.meshes hf rfl (by decide))]
    exact ⟨hk, f, hk.trans hf⟩
  · intro p hp
    obtain ⟨m, hf⟩ := (hg.materials_live p hp).2
    have hk : h1.read p = g.heap.read p := by
      rw [f1 p, if_neg (o1.not_mem p _ Owner.materials hf rfl (by decide))]
    exact ⟨hk, m, hk.trans hf⟩
  · intro p hp
    obtain ⟨f, hf⟩ := (hg.meshes_live p hp).2
    refine ⟨?_, ?_⟩
    · refine g.teardownTrace_count se sm sg Owner.meshes g.meshes sg hg.meshes_nodup hgm p hp
        (phaseTrace .entities g.entities se ++ phaseTrace .materials g.materials sm)
        (releaseOf .playerCamera g.playerCamera ++ releaseOf .pixelShader g.pixelShader ++
          releaseOf .vertexShader g.vertexShader) ?_ ?_ ?_
      · simp only [Game.teardownTrace, List.append_assoc]
      · intro r hr
        simp only [List.mem_append] at hr
        rcases hr with hr | hr
        · rw [mE r hr]; decide
        · rw [mM r hr]; decide
      · intro r hr
        simp only [List.mem_append] at hr
        rcases hr with (hr | hr) | hr
        · rw [mC r hr]; decide
        · rw [mP r hr]; decide
        · rw [mV r hr]; decide
    · intro r hr hrp
      obtain ⟨o, ho, hown⟩ := typed r hr
      rw [hrp, hf] at ho
      cases ho
      exact Owner.owns_unique r.owner Owner.meshes _ hown rfl
  · intro p hp
    obtain ⟨m, hf⟩ := (hg.materials_live p hp).2
    refine ⟨?_, ?_⟩
    · refine g.teardownTrace_count se sm sg Owner.materials g.materials sm hg.materials_nodup hm
        p hp (phaseTrace .entities g.entities se)
        (phaseTrace .meshes g.meshes sg ++ releaseOf .playerCamera g.playerCamera ++
          releaseOf .pixelShader g.pixelShader ++ releaseOf .vertexShader g.vertexShader) ?_ ?_ ?_
      · simp only [Game.teardownTrace, List.append_assoc]
      · intro r hr
        rw [mE r hr]; decide
      · intro r hr
        simp only [List.mem_append] at hr
        rcases hr with ((hr | hr) | hr) | hr
        · rw [mG r hr]; decide
        · rw [mC r hr]; decide
        · rw [mP r hr]; decide
        · rw [mV r hr]; decide
    · intro r hr hrp
      obtain ⟨o, ho, hown⟩ := typed r hr
      rw [hrp, hf] at ho
      cases ho
      exact Owner.owns_unique r.owner Owner.materials _ hown rfl

/-- C4 at concrete inputs: a sixth entity pushed onto the scene `Init` sets up,
and the teardown of that scene under three interleavings. -/
theorem C4_entity_lifetime_leaves_mesh_and_material_witness :
    (∃ g', (Game.afterInit ratOps simpleCamera).pushEntity ratOps 0 1 = .ok g' ∧
      g'.meshes = (Game.afterInit ratOps simpleCamera).meshes ∧
      g'.materials = (Game.afterInit ratOps simpleCamera).materials ∧
      ∀ p o, (Game.afterInit ratOps simpleCamera).heap.read p = some o →
        g'.heap.read p = some o) ∧
    (∃ h1 t1 h' t, deleteAll .entities (Game.afterInit ratOps simpleCamera).entities
        [4, 2, 0, 1, 3] (Game.afterInit ratOps simpleCamera).heap = .ok (h1, t1) ∧
      (∀ r ∈ t1,
        r.owner = .entities ∧ r.addr ∈ (Game.afterInit ratOps simpleCamera).entities) ∧
      (∀ p ∈ (Game.afterInit ratOps simpleCamera).meshes,
        h1.read p = (Game.afterInit ratOps simpleCamera).heap.read p ∧
        ∃ f, h1.read p = some (.mesh f)) ∧
      (∀ p ∈ (Game.afterInit ratOps simpleCamera).materials,
        h1.read p = (Game.afterInit ratOps simpleCamera).heap.read p ∧
        ∃ m, h1.read p = some (.material m)) ∧
      (Game.afterInit ratOps simpleCamera).destructor [4, 2, 0, 1, 3] [0, 1, 2, 3, 4]
        [1, 0, 3, 2, 4] = .ok (h', t) ∧
      (∀ p ∈ (Game.afterInit ratOps simpleCamera).meshes,
        t.count ⟨.meshes, p⟩ = 1 ∧ ∀ r ∈ t, r.addr = p → r.owner = .meshes) ∧
      (∀ p ∈ (Game.afterInit ratOps simpleCamera).materials,
        t.count ⟨.materials, p⟩ = 1 ∧ ∀ r ∈ t, r.addr = p → r.owner = .materials)) :=
  ⟨⟨_, rfl, C4_entity_lifetime_leaves_mesh_and_material.1 ratOps
      (Game.afterInit ratOps simpleCamera) _ 0 1 rfl⟩,
   C4_entity_lifetime_leaves_mesh_and_material.2 (Game.afterInit ratOps simpleCamera)
    [4, 2, 0, 1, 3] [0, 1, 2, 3, 4] [1, 0, 3, 2, 4] (Game.afterInit_owned _ _)
    (show List.Perm [4, 2, 0, 1, 3] (List.range 5) by decide)
    (show List.Perm [0, 1, 2, 3, 4] (List.range 5) by decide)
    (show List.Perm [1, 0, 3, 2, 4] (List.range 5) by decide)⟩

end SMOrc
